import Mathlib

/-! mc_rtc : LIPM stabilizer task, contact wrench cone and contact bookkeeping

Shallow embedding of the inline members of `StabilizerTask`
(`include/mc_tasks/lipm_stabilizer/StabilizerTask.h`); the embedding of
`mc_rtc::Configuration` follows in the namespace `mc_rtc`.

Conventions of the embedding

* A C++ `double` is idealised as an exact rational number (`ℚ`): every
  definition below is computable and every inequality decidable, and no
  rounding is modelled.
* `Eigen::Matrix<double, 16, 6>` is a `Matrix (Fin 16) (Fin 6) ℚ`; the Eigen
  comma initializer `m << c0, c1, ...` is the row-major fill `commaInit`.
* `sva::ForceVecd` (SpaceVecAlg) is a pair (couple, force), built in that
  order by its two-argument constructor; as a 6-vector it reads
  (mx, my, mz, fx, fy, fz).
* `std::unordered_map<ContactState, Contact>` is an association list; `count`
  is the number of entries stored under a key.
-/

namespace mc_tasks
namespace lipm_stabilizer

/-! ## Data model -/

/-- Foot contact identifiers, the keys of `contacts_`. -/
inductive ContactState where
  | Left
  | Right
  deriving DecidableEq, Repr

/-- Eigen::Vector2d. -/
structure Vector2d where
  x : ℚ
  y : ℚ
  deriving DecidableEq, Repr

/-- Eigen::Vector3d. -/
structure Vector3d where
  x : ℚ
  y : ℚ
  z : ℚ
  deriving DecidableEq, Repr

/-- The type sva::ForceVecd: a spatial force vector, couple (moment) first, force second. -/
structure ForceVecd where
  couple : Vector3d
  force : Vector3d
  deriving DecidableEq, Repr

/-- The type sva::PTransformd restricted to what the contact bookkeeping stores:
a rotation matrix and a translation. -/
structure PTransformd where
  rotation : Matrix (Fin 3) (Fin 3) ℚ
  translation : Vector3d

/-- Modelled from the spec: the contact descriptor `internal::Contact`
(`mc_tasks/lipm_stabilizer/Contact.h` is not among the sources), the bundle of
ankle pose, sole half-length, sole half-width, friction and
surface-origin-to-ankle translation. -/
structure Contact where
  anklePose : PTransformd
  halfLength : ℚ
  halfWidth : ℚ
  friction : ℚ
  surfaceToAnkle : Vector3d

/-- Modelled from the spec: the tunable gains of
`mc_rbdyn::lipm_stabilizer::StabilizerConfiguration`
(`StabilizerConfiguration.h` is not among the sources), restricted to the
fields with an enforced range. -/
structure StabilizerConfiguration where
  dcmPropGain : ℚ
  dcmIntegralGain : ℚ
  dcmDerivGain : ℚ
  comAdmittance : Vector2d
  copAdmittance : Vector2d
  dfzAdmittance : ℚ
  dfzDamping : ℚ
  deriving DecidableEq, Repr

/-- The 16 x 6 matrix type of `wrenchFaceMatrix_`. -/
abbrev FaceMatrix := Matrix (Fin 16) (Fin 6) ℚ

/-- A contact wrench as a 6-vector (mx, my, mz, fx, fy, fz). -/
abbrev Wrench := Fin 6 → ℚ

/-! ## Constants of `StabilizerTask` -/

/-- Maximum average (integral) DCM error in [m]. -/
def MAX_AVERAGE_DCM_ERROR : ℚ := 0.05
def MAX_COM_ADMITTANCE : ℚ := 20
def MAX_COP_ADMITTANCE : ℚ := 1 / 10
def MAX_DCM_D_GAIN : ℚ := 2
def MAX_DCM_I_GAIN : ℚ := 100
def MAX_DCM_P_GAIN : ℚ := 20
def MAX_DFZ_ADMITTANCE : ℚ := 5 / 10000
def MAX_DFZ_DAMPING : ℚ := 10

/-- Maximum x-axis angular velocity in [rad] / [s] for foot damping control. -/
def MAX_FDC_RX_VEL : ℚ := 0.2

/-- Maximum y-axis angular velocity in [rad] / [s] for foot damping control. -/
def MAX_FDC_RY_VEL : ℚ := 0.2

/-- Maximum z-axis angular velocity in [rad] / [s] for foot damping control. -/
def MAX_FDC_RZ_VEL : ℚ := 0.2

/-- Minimum normal contact force in double support. -/
def MIN_DS_PRESSURE : ℚ := 15

/-- Minimum force for valid ZMP computation. -/
def MIN_NET_TOTAL_FORCE_ZMP : ℚ := 1

/-- Gravity (ISO 80000-3). -/
def GRAVITY : ℚ := 9.80665

/-- The zero vector, `Eigen::Vector3d::Zero()`. -/
def Vector3d.Zero : Vector3d := { x := 0, y := 0, z := 0 }

/-- The data members of `StabilizerTask` read or written by the functions
below; a member with a default member initializer in the header carries the
same default here. -/
structure StabilizerTask where
  contacts_ : List (ContactState × Contact)
  c_ : StabilizerConfiguration
  wrenchFaceMatrix_ : FaceMatrix
  comTarget_ : Vector3d := Vector3d.Zero
  comdTarget_ : Vector3d := Vector3d.Zero
  comddTarget_ : Vector3d := Vector3d.Zero
  zmpTarget_ : Vector3d := Vector3d.Zero
  gravity_ : Vector3d := { x := 0, y := 0, z := -GRAVITY }
  dcmAverageError_ : Vector3d := Vector3d.Zero
  dcmError_ : Vector3d := Vector3d.Zero
  dcmVelError_ : Vector3d := Vector3d.Zero
  measuredCoM_ : Vector3d := Vector3d.Zero
  measuredCoMd_ : Vector3d := Vector3d.Zero
  dfzForceError_ : ℚ := 0
  dfzHeightError_ : ℚ := 0
  dt_ : ℚ := 0.005
  leftFootRatio_ : ℚ := 0.5
  mass_ : ℚ := 38

/-! ## Contact wrench cone -/

/-- Eigen comma initializer for a 16 x 6 matrix: coefficient number `6 * i + j`
of the stream lands at row `i`, column `j`. -/
def commaInit (coeffs : List ℚ) : FaceMatrix :=
  Matrix.of fun i j => coeffs.getD (6 * i.val + j.val) 0

/-- The coefficients streamed into `wrenchFaceMatrix_`, in source order. -/
def wrenchFaceCoeffs (X Y mu : ℚ) : List ℚ :=
  [ -- mx, my, mz, fx, fy, fz
      0,   0,   0,  -1,   0,           -mu,
      0,   0,   0,   1,   0,           -mu,
      0,   0,   0,   0,  -1,           -mu,
      0,   0,   0,   0,   1,           -mu,
     -1,   0,   0,   0,   0,            -Y,
      1,   0,   0,   0,   0,            -Y,
      0,  -1,   0,   0,   0,            -X,
      0,   1,   0,   0,   0,            -X,
     mu,  mu,  -1,  -Y,  -X, -(X + Y) * mu,
     mu, -mu,  -1,  -Y,   X, -(X + Y) * mu,
    -mu,  mu,  -1,   Y,  -X, -(X + Y) * mu,
    -mu, -mu,  -1,   Y,   X, -(X + Y) * mu,
     mu,  mu,   1,   Y,   X, -(X + Y) * mu,
     mu, -mu,   1,   Y,  -X, -(X + Y) * mu,
    -mu,  mu,   1,  -Y,   X, -(X + Y) * mu,
    -mu, -mu,   1,  -Y,  -X, -(X + Y) * mu ]

/-- Update of the H-representation of the contact wrench cone:
`StabilizerTask::wrenchFaceMatrix(halfLength, halfWidth, friction)`. -/
def StabilizerTask.wrenchFaceMatrix (s : StabilizerTask)
    (halfLength halfWidth friction : ℚ) : StabilizerTask :=
  let X := halfLength
  let Y := halfWidth
  let mu := friction
  { s with wrenchFaceMatrix_ := commaInit (wrenchFaceCoeffs X Y mu) }

/-- The face matrix of section 6 of the specification, row by row, over the
columns (mx, my, mz, fx, fy, fz). -/
def specFaceMatrix (X Y μ : ℚ) : FaceMatrix :=
  !![  0,  0,  0, -1,  0, -μ;
       0,  0,  0,  1,  0, -μ;
       0,  0,  0,  0, -1, -μ;
       0,  0,  0,  0,  1, -μ;
      -1,  0,  0,  0,  0, -Y;
       1,  0,  0,  0,  0, -Y;
       0, -1,  0,  0,  0, -X;
       0,  1,  0,  0,  0, -X;
       μ,  μ, -1, -Y, -X, -(X + Y) * μ;
       μ, -μ, -1, -Y,  X, -(X + Y) * μ;
      -μ,  μ, -1,  Y, -X, -(X + Y) * μ;
      -μ, -μ, -1,  Y,  X, -(X + Y) * μ;
       μ,  μ,  1,  Y,  X, -(X + Y) * μ;
       μ, -μ,  1,  Y, -X, -(X + Y) * μ;
      -μ,  μ,  1, -Y,  X, -(X + Y) * μ;
      -μ, -μ,  1, -Y, -X, -(X + Y) * μ ]

/-- The admissible region of a face matrix: `A · w ≤ 0`, row by row. -/
def admissible (A : FaceMatrix) (w : Wrench) : Prop :=
  ∀ i : Fin 16, (A.mulVec w) i ≤ 0

instance (A : FaceMatrix) (w : Wrench) : Decidable (admissible A w) := by
  unfold admissible; infer_instance

/-- Moment about x, column 0 of the face matrix. -/
def Wrench.mx (w : Wrench) : ℚ := w 0

/-- Moment about y, column 1. -/
def Wrench.my (w : Wrench) : ℚ := w 1

/-- Moment about z (yaw torque), column 2. -/
def Wrench.mz (w : Wrench) : ℚ := w 2

/-- Tangential force along x, column 3. -/
def Wrench.fx (w : Wrench) : ℚ := w 3

/-- Tangential force along y, column 4. -/
def Wrench.fy (w : Wrench) : ℚ := w 4

/-- Normal force, column 5. -/
def Wrench.fz (w : Wrench) : ℚ := w 5

/-- Modelled from the spec: the centre of pressure of a contact wrench in the
sole frame, CoP.x = -my / fz and CoP.y = mx / fz (the code deriving CoP targets
is not among the sources). -/
def cop (w : Wrench) : Vector2d :=
  { x := -w.my / w.fz, y := w.mx / w.fz }

/-- The wrench with the given moment (mx, my, mz) and force (fx, fy, fz). -/
def Wrench.mk (mx my mz fx fy fz : ℚ) : Wrench := ![mx, my, mz, fx, fy, fz]

/-- A sample stabilizer state: no contact registered, all gains zero, zero
face matrix. -/
def sampleTask : StabilizerTask :=
  { contacts_ := []
    c_ := { dcmPropGain := 0, dcmIntegralGain := 0, dcmDerivGain := 0,
            comAdmittance := ⟨0, 0⟩, copAdmittance := ⟨0, 0⟩,
            dfzAdmittance := 0, dfzDamping := 0 }
    wrenchFaceMatrix_ := 0 }

/-! ## Inline accessors of `StabilizerTask` -/

/-- The call `contacts_.count(state)`: number of entries stored under the key. -/
def contactCount (contacts : List (ContactState × Contact)) (state : ContactState) : ℕ :=
  contacts.countP fun e => decide (e.1 = state)

/-- The accessor `StabilizerTask::inContact(state)`: the count, converted to `bool`. -/
def StabilizerTask.inContact (s : StabilizerTask) (state : ContactState) : Bool :=
  decide (contactCount s.contacts_ state ≠ 0)

/-- The accessor `StabilizerTask::inDoubleSupport()`. -/
def StabilizerTask.inDoubleSupport (s : StabilizerTask) : Bool :=
  s.inContact ContactState.Left && s.inContact ContactState.Right

/-- The keys of the contact map. -/
def StabilizerTask.contactKeys (s : StabilizerTask) : List ContactState :=
  s.contacts_.map Prod.fst

/-- The member function `StabilizerTask::contactAdmittance()`: 6D contact admittance
vector from the 2D CoP admittance. -/
def StabilizerTask.contactAdmittance (s : StabilizerTask) : ForceVecd :=
  { couple := { x := s.c_.copAdmittance.y, y := s.c_.copAdmittance.x, z := 0 }
    force := { x := 0, y := 0, z := 0 } }

/-- A sample contact: identity ankle pose at the origin, square sole of
half-side 1/10, friction 7/10. -/
def sampleContact : Contact :=
  { anklePose := { rotation := 1, translation := ⟨0, 0, 0⟩ }
    halfLength := 1 / 10
    halfWidth := 1 / 10
    friction := 7 / 10
    surfaceToAnkle := ⟨0, 0, 0⟩ }

/-- A sample single-support state: only the left foot is registered. -/
def leftSupportTask : StabilizerTask :=
  { sampleTask with contacts_ := [(ContactState.Left, sampleContact)] }

/-! ## Gain clamping -/

/-- Modelled from the spec: clamping of a value to a range, an out-of-range
value being replaced by the nearest bound (the clamping helper called by
`checkGains` is not among the sources). -/
def clamp (v vMin vMax : ℚ) : ℚ :=
  if v > vMax then vMax else if v < vMin then vMin else v

/-- Modelled from the spec: `StabilizerTask::configure(config)`, which replaces
the stabilizer configuration by `config` (the body, in `StabilizerTask.cpp`,
is not among the sources). -/
def StabilizerTask.configure (s : StabilizerTask) (config : StabilizerConfiguration) :
    StabilizerTask :=
  { s with c_ := config }

/-- Modelled from the spec: `StabilizerTask::checkGains()`, declared in the
header with its body in `StabilizerTask.cpp`, which is not among the sources.
Every gain and admittance of the configuration is clamped to its range
`[0, MAX_*]` of section 6. -/
def StabilizerTask.checkGains (s : StabilizerTask) : StabilizerTask :=
  { s with
    c_ :=
      { dcmPropGain := clamp s.c_.dcmPropGain 0 MAX_DCM_P_GAIN
        dcmIntegralGain := clamp s.c_.dcmIntegralGain 0 MAX_DCM_I_GAIN
        dcmDerivGain := clamp s.c_.dcmDerivGain 0 MAX_DCM_D_GAIN
        comAdmittance :=
          { x := clamp s.c_.comAdmittance.x 0 MAX_COM_ADMITTANCE
            y := clamp s.c_.comAdmittance.y 0 MAX_COM_ADMITTANCE }
        copAdmittance :=
          { x := clamp s.c_.copAdmittance.x 0 MAX_COP_ADMITTANCE
            y := clamp s.c_.copAdmittance.y 0 MAX_COP_ADMITTANCE }
        dfzAdmittance := clamp s.c_.dfzAdmittance 0 MAX_DFZ_ADMITTANCE
        dfzDamping := clamp s.c_.dfzDamping 0 MAX_DFZ_DAMPING } }

/-- The stored value `r` is the input `v` brought into `[lo, hi]`: it lies in
the range, an in-range input is kept and an out-of-range input is replaced by
the nearest bound. -/
def IsClampOf (v lo hi r : ℚ) : Prop :=
  lo ≤ r ∧ r ≤ hi ∧ (lo ≤ v → v ≤ hi → r = v) ∧ (v < lo → r = lo) ∧ (hi < v → r = hi)

/-- A sample configuration with two out-of-range gains. -/
def sampleConfig : StabilizerConfiguration :=
  { dcmPropGain := 50, dcmIntegralGain := -1, dcmDerivGain := 1 / 2,
    comAdmittance := ⟨0, 0⟩, copAdmittance := ⟨1 / 100, 1 / 100⟩,
    dfzAdmittance := 1 / 10000, dfzDamping := 0 }

/-! ## Measurement accessors -/

/-- The accessor `StabilizerTask::measuredCoM()`. -/
def StabilizerTask.measuredCoM (s : StabilizerTask) : Vector3d :=
  s.measuredCoM_

/-- The accessor `StabilizerTask::measuredCoMd()`; its body reads
`return measuredCoM_;`. -/
def StabilizerTask.measuredCoMd (s : StabilizerTask) : Vector3d :=
  s.measuredCoM_

/-- A sample state whose measured CoM position and velocity differ. -/
def movingTask : StabilizerTask :=
  { sampleTask with
    measuredCoM_ := { x := 0, y := 0, z := 78 / 100 }
    measuredCoMd_ := { x := 1 / 10, y := 0, z := 0 } }

end lipm_stabilizer
end mc_tasks

/-! # mc_rtc : the `Configuration` accessors and conversions

Shallow embedding of the member templates of `mc_rtc::Configuration`
(`include/mc_rtc/Configuration.h`).

* A member that can throw returns `Except Thrown _`; `Thrown.Exception` is
  `Configuration::Exception`, `Thrown.other` any other exception, which a
  user-provided conversion may raise and `catch(Exception &)` does not catch.
* A conversion `operator T()` is a function `Configuration → Except Thrown T`,
  passed explicitly to the templates.
* `size_t` is 64 bits wide and `int` 32 bits wide; `static_cast<int>` wraps.
* `std::vector<T>` and `std::array<T, N>` are lists, `std::set<T>` is a
  `Finset T` whose equality is the equivalence of the comparator.
-/

namespace mc_rtc

/-- Modelled from the spec: the JSON value behind `Configuration::Json`, whose
implementation `Json::Impl` is hidden from the header: the JSON data model. -/
inductive Json where
  | null
  | bool (b : Bool)
  | int (i : ℤ)
  | double (d : ℚ)
  | string (s : String)
  | array (elems : List Json)
  | object (members : List (String × Json))

/-- What a member of `Configuration` throws. -/
inductive Thrown where
  | Exception (msg : String)
  | other (msg : String)
  deriving DecidableEq, Repr

/-- The method `Json::isArray()`. -/
def Json.isArray : Json → Bool
  | Json.array _ => true
  | _ => false

/-- The method `Json::size()`: the number of elements of an array. -/
def Json.size : Json → ℕ
  | Json.array elems => elems.length
  | _ => 0

/-- Modelled from the spec: the declaration `Json operator[](size_t idx) const`,
whose body is not among the sources: element `idx` of an array. The
conversions below read it at indices below the size only; any other read is
given the value null here. -/
def Json.index (v : Json) (idx : ℕ) : Json :=
  match v with
  | Json.array elems => elems.getD idx Json.null
  | _ => Json.null

/-- The wrapper `mc_rtc::Configuration` around one JSON value. -/
structure Configuration where
  v : Json

/-- Modelled from the spec: `Configuration::has(key)`, documented in the header
as true if `key` is part of the configuration (body not among the sources). -/
def Configuration.has (c : Configuration) (key : String) : Bool :=
  match c.v with
  | Json.object members => (members.lookup key).isSome
  | _ => false

/-- Modelled from the spec: `Configuration::operator()(key)`, documented in the
header as returning the entry stored under `key` and throwing if `key` is not
stored (body not among the sources; the text of the message is not
documented). -/
def Configuration.call (c : Configuration) (key : String) : Except Thrown Configuration :=
  match c.v with
  | Json.object members =>
    match members.lookup key with
    | some j => Except.ok { v := j }
    | none => Except.error (Thrown.Exception "No entry for the key in the configuration")
  | _ => Except.error (Thrown.Exception "No entry for the key in the configuration")

/-- Modelled from the spec: `Configuration::operator int()`, documented in the
header as strictly for int-typed entries and throwing if the underlying value
does not hold an int (body not among the sources). -/
def Configuration.toInt (c : Configuration) : Except Thrown ℤ :=
  match c.v with
  | Json.int i => Except.ok i
  | _ => Except.error (Thrown.Exception "Stored Json value is not an int")

/-- The conversion `static_cast<int>(i)` of a `size_t`: reduction modulo 2^32
into [-2^31, 2^31). -/
def staticCastInt (i : ℕ) : ℤ :=
  if (i : ℤ) % 4294967296 < 2147483648 then (i : ℤ) % 4294967296
  else (i : ℤ) % 4294967296 - 4294967296

/-- The implicit conversion of an `int` argument to the `size_t` parameter of
`Json::operator[]`: reduction modulo 2^64. -/
def toSizeT (z : ℤ) : ℕ :=
  (z % 18446744073709551616).toNat

/-- The index actually read by `v[static_cast<int>(i)]`. -/
def castIndex (i : ℕ) : ℕ :=
  toSizeT (staticCastInt i)

/-- The loop `for(size_t i = i0; i < i0 + n; ++i) body`, with `n` iterations
left; an exception thrown by the body leaves the loop. -/
def forLoop {σ : Type} (body : ℕ → σ → Except Thrown σ) : ℕ → ℕ → σ → Except Thrown σ
  | 0, _, st => Except.ok st
  | n + 1, i, st =>
    match body i st with
    | Except.error e => Except.error e
    | Except.ok st1 => forLoop body n (i + 1) st1

/-- The conversion `Configuration::operator std::vector<T, A>()`. -/
def Configuration.toVector {T : Type} (conv : Configuration → Except Thrown T)
    (c : Configuration) : Except Thrown (List T) :=
  if c.v.isArray then
    forLoop
      (fun i ret =>
        match conv { v := c.v.index (castIndex i) } with
        | Except.error e => Except.error e
        | Except.ok x => Except.ok (ret ++ [x]))
      c.v.size 0 []
  else
    Except.error (Thrown.Exception "Stored Json value is not a vector")

/-- The conversion `Configuration::operator std::array<T, N>()`; `init` is the
value of the elements of the default-initialized `ret`. -/
def Configuration.toArray {T : Type} (conv : Configuration → Except Thrown T) (N : ℕ)
    (init : T) (c : Configuration) : Except Thrown (List T) :=
  if c.v.isArray && c.v.size == N then
    forLoop
      (fun i ret =>
        match conv { v := c.v.index (castIndex i) } with
        | Except.error e => Except.error e
        | Except.ok x => Except.ok (ret.set i x))
      N 0 (List.replicate N init)
  else
    Except.error (Thrown.Exception "Stored Json vaule is not an array or its size is incorrect")

/-- The conversion `Configuration::operator std::set<T, C, A>()`; `insert`
reports an element already present, in which case the conversion throws. -/
def Configuration.toSet {T : Type} [DecidableEq T] (conv : Configuration → Except Thrown T)
    (c : Configuration) : Except Thrown (Finset T) :=
  if c.v.isArray then
    forLoop
      (fun i ret =>
        match conv { v := c.v.index (castIndex i) } with
        | Except.error e => Except.error e
        | Except.ok x =>
          if x ∈ ret then
            Except.error (Thrown.Exception "Stored Json set does not hold unique values")
          else Except.ok (insert x ret))
      c.v.size 0 ∅
  else
    Except.error (Thrown.Exception "Stored Json value is not an array")

/-- The block `try { body } catch(Exception &) { handler }`: only
`Configuration::Exception` is caught. -/
def tryCatchException {α : Type} (body : Except Thrown α) (handler : Except Thrown α) :
    Except Thrown α :=
  match body with
  | Except.ok a => Except.ok a
  | Except.error (Thrown.Exception _) => handler
  | Except.error (Thrown.other msg) => Except.error (Thrown.other msg)

/-- The expression `(*this)(key)` converted to `T`: the entry is looked up,
then converted. -/
def Configuration.callAs {T : Type} (conv : Configuration → Except Thrown T)
    (c : Configuration) (key : String) : Except Thrown T :=
  match c.call key with
  | Except.error e => Except.error e
  | Except.ok entry => conv entry

/-- The accessor `Configuration::operator()(const std::string & key, T & v)`;
the result is the value of `v` after the call. -/
def Configuration.callRef {T : Type} (conv : Configuration → Except Thrown T)
    (c : Configuration) (key : String) (v : T) : Except Thrown T :=
  tryCatchException (c.callAs conv key) (Except.ok v)

/-- The accessor `Configuration::operator()(const std::string & key, const T & v)`. -/
def Configuration.callDefault {T : Type} (conv : Configuration → Except Thrown T)
    (c : Configuration) (key : String) (v : T) : Except Thrown T :=
  tryCatchException (c.callAs conv key) (Except.ok v)

/-- The comparison `Configuration::operator==(const T & rhs)`: the stored value
is converted to `T`, then compared. -/
def Configuration.operatorEq {T : Type} [DecidableEq T]
    (conv : Configuration → Except Thrown T) (c : Configuration) (rhs : T) :
    Except Thrown Bool :=
  match conv c with
  | Except.error e => Except.error e
  | Except.ok lhs => Except.ok (decide (lhs = rhs))

/-- Iteration over the elements of a list together with their indices, from
index `i` on. -/
def foldIdx {σ : Type} (step : ℕ → Json → σ → Except Thrown σ) :
    List Json → ℕ → σ → Except Thrown σ
  | [], _, st => Except.ok st
  | j :: js, i, st =>
    match step i j st with
    | Except.error e => Except.error e
    | Except.ok st1 => foldIdx step js (i + 1) st1

/-- Element `j` of the array converts to `t`. -/
def ConvertsTo {T : Type} (conv : Configuration → Except Thrown T) (j : Json) (t : T) : Prop :=
  conv { v := j } = Except.ok t

/-- The list `ys` holds, in order, the conversions of the elements of `xs`. -/
def ConvertsAll {T : Type} (conv : Configuration → Except Thrown T) (xs : List Json)
    (ys : List T) : Prop :=
  ys.length = xs.length ∧
    ∀ (i : ℕ) (h₁ : i < xs.length) (h₂ : i < ys.length),
      conv { v := xs.get ⟨i, h₁⟩ } = Except.ok (ys.get ⟨i, h₂⟩)

/-- A sample configuration object with an int entry and a string entry. -/
def sampleObject : Configuration :=
  { v := Json.object [("n", Json.int 7), ("name", Json.string "hrp")] }

/-- A sample array of three distinct ints. -/
def sampleArray : Configuration :=
  { v := Json.array [Json.int 1, Json.int 2, Json.int 3] }

/-! ## Writing to the document

A `Configuration` returned by `array(...)` is a handle on a value inside the
document: what is pushed through the handle is stored in the document. Here
the handle is the array value under construction, and the document receives
its final value. -/

/-- Modelled from the spec: the document in which the entry under `key` is
`j`, any previous content under `key` being overwritten, as the header
documents for `add` and `array(key, size)` (bodies not among the sources). On
a value that is not an object, for which the header documents nothing, the
document is left as it is. -/
def Configuration.withEntry (c : Configuration) (key : String) (j : Json) : Configuration :=
  match c.v with
  | Json.object members =>
    { v := Json.object ((key, j) :: members.filter fun e => !(e.1 == key)) }
  | _ => c

/-- Modelled from the spec: `Configuration::push(value)` for a value whose JSON
image is `x`, documented in the header as inserting the element into an array
and throwing if the underlying value is not an array (bodies not among the
sources). -/
def Configuration.push (v : Configuration) (x : Json) : Except Thrown Configuration :=
  match v.v with
  | Json.array elems => Except.ok { v := Json.array (elems ++ [x]) }
  | _ => Except.error (Thrown.Exception "Stored Json value is not an array")

/-- The loop `for(const auto & vi : value) { v.push(vi, args...); }` of the
vector overloads; `save` is the JSON image of an element. -/
def pushAll {T : Type} (save : T → Json) : List T → Configuration → Except Thrown Configuration
  | [], v => Except.ok v
  | vi :: rest, v =>
    match v.push (save vi) with
    | Except.error e => Except.error e
    | Except.ok v1 => pushAll save rest v1

/-- The loop `for(const auto & v : value) { v.push(*v, args...); }` of the set
overloads. The loop variable `v` hides the array `v` declared before the loop,
so `v.push(*v, args...)` is resolved on the set element: `memberPush e` stands
for that call on the element `e`, which has no access to the array. -/
def callEach {T : Type} (memberPush : T → Except Thrown Unit) : List T → Except Thrown Unit
  | [] => Except.ok ()
  | e :: rest =>
    match memberPush e with
    | Except.error err => Except.error err
    | Except.ok _ => callEach memberPush rest

/-- The overload `Configuration::add(key, const std::vector<T, A> & value)`. -/
def Configuration.addVector {T : Type} (save : T → Json) (c : Configuration) (key : String)
    (value : List T) : Except Thrown Configuration :=
  match pushAll save value { v := Json.array [] } with
  | Except.error e => Except.error e
  | Except.ok v => Except.ok (c.withEntry key v.v)

/-- The overload `Configuration::add(key, const std::set<T, C, A> & value)`; the
set is visited in increasing order. -/
def Configuration.addSet {T : Type} [LinearOrder T] (memberPush : T → Except Thrown Unit)
    (c : Configuration) (key : String) (value : Finset T) : Except Thrown Configuration :=
  match callEach memberPush (value.sort (· ≤ ·)) with
  | Except.error e => Except.error e
  | Except.ok _ => Except.ok (c.withEntry key (Json.array []))

/-- The overload `Configuration::push(const std::vector<T, A> & value)`: the
private `array(size)` creates an empty array, taken here to be appended to the
stored array as for the other `push` overloads, and the elements are pushed
into it. -/
def Configuration.pushVector {T : Type} (save : T → Json) (c : Configuration)
    (value : List T) : Except Thrown Configuration :=
  match pushAll save value { v := Json.array [] } with
  | Except.error e => Except.error e
  | Except.ok v => c.push v.v

/-- The overload `Configuration::push(const std::set<T, C, A> & value)`. -/
def Configuration.pushSet {T : Type} [LinearOrder T] (memberPush : T → Except Thrown Unit)
    (c : Configuration) (value : Finset T) : Except Thrown Configuration :=
  match callEach memberPush (value.sort (· ≤ ·)) with
  | Except.error e => Except.error e
  | Except.ok _ => c.push (Json.array [])

end mc_rtc

namespace mc_tasks
namespace lipm_stabilizer

/-! ## Theorems -/

/-- C1: for every halfLength X, halfWidth Y and friction mu,
`wrenchFaceMatrix(X, Y, mu)` stores the 16 x 6 matrix whose rows are exactly
the 16 rows of section 6 of the specification, in that order. -/
theorem wrenchFaceMatrix_eq_spec (s : StabilizerTask) (X Y mu : ℚ) :
    (s.wrenchFaceMatrix X Y mu).wrenchFaceMatrix_ = specFaceMatrix X Y mu := by
  ext i j
  fin_cases i <;> fin_cases j <;> rfl

/-! ### Row-by-row reading of the stored matrix -/

theorem wrenchFaceMatrix_stored (s : StabilizerTask) (X Y mu : ℚ) :
    (s.wrenchFaceMatrix X Y mu).wrenchFaceMatrix_ = commaInit (wrenchFaceCoeffs X Y mu) :=
  rfl


@[simp] theorem Wrench.mk_mx (a b c d e f : ℚ) : (Wrench.mk a b c d e f).mx = a := rfl
@[simp] theorem Wrench.mk_my (a b c d e f : ℚ) : (Wrench.mk a b c d e f).my = b := rfl
@[simp] theorem Wrench.mk_mz (a b c d e f : ℚ) : (Wrench.mk a b c d e f).mz = c := rfl
@[simp] theorem Wrench.mk_fx (a b c d e f : ℚ) : (Wrench.mk a b c d e f).fx = d := rfl
@[simp] theorem Wrench.mk_fy (a b c d e f : ℚ) : (Wrench.mk a b c d e f).fy = e := rfl
@[simp] theorem Wrench.mk_fz (a b c d e f : ℚ) : (Wrench.mk a b c d e f).fz = f := rfl

/-- Entry `i` of `A · w` as the dot product of row `i` with the wrench. -/
theorem mulVec_row (A : FaceMatrix) (w : Wrench) (i : Fin 16) :
    A.mulVec w i = A i ⟨0, by decide⟩ * w.mx + A i ⟨1, by decide⟩ * w.my
      + A i ⟨2, by decide⟩ * w.mz + A i ⟨3, by decide⟩ * w.fx
      + A i ⟨4, by decide⟩ * w.fy + A i ⟨5, by decide⟩ * w.fz := by
  simp only [Matrix.mulVec, Matrix.dotProduct, Fin.sum_univ_six, Wrench.mx, Wrench.my,
    Wrench.mz, Wrench.fx, Wrench.fy, Wrench.fz]
  rfl

/-- Entry `i` of the stored matrix times a wrench, read off the coefficient stream. -/
theorem faceMatrix_mulVec_row (X Y mu : ℚ) (w : Wrench) (i : Fin 16) :
    (commaInit (wrenchFaceCoeffs X Y mu)).mulVec w i =
      (wrenchFaceCoeffs X Y mu).getD (6 * i.val) 0 * w.mx
      + (wrenchFaceCoeffs X Y mu).getD (6 * i.val + 1) 0 * w.my
      + (wrenchFaceCoeffs X Y mu).getD (6 * i.val + 2) 0 * w.mz
      + (wrenchFaceCoeffs X Y mu).getD (6 * i.val + 3) 0 * w.fx
      + (wrenchFaceCoeffs X Y mu).getD (6 * i.val + 4) 0 * w.fy
      + (wrenchFaceCoeffs X Y mu).getD (6 * i.val + 5) 0 * w.fz := by
  rw [mulVec_row]; rfl

/-- The sixteen entries of the stored matrix times a wrench, in row order. -/
theorem faceMatrix_rows (X Y mu : ℚ) (w : Wrench) :
    ((commaInit (wrenchFaceCoeffs X Y mu)).mulVec w ⟨0, by decide⟩ = -w.fx - mu * w.fz
    ∧ (commaInit (wrenchFaceCoeffs X Y mu)).mulVec w ⟨1, by decide⟩ = w.fx - mu * w.fz
    ∧ (commaInit (wrenchFaceCoeffs X Y mu)).mulVec w ⟨2, by decide⟩ = -w.fy - mu * w.fz
    ∧ (commaInit (wrenchFaceCoeffs X Y mu)).mulVec w ⟨3, by decide⟩ = w.fy - mu * w.fz)
    ∧ ((commaInit (wrenchFaceCoeffs X Y mu)).mulVec w ⟨4, by decide⟩ = -w.mx - Y * w.fz
    ∧ (commaInit (wrenchFaceCoeffs X Y mu)).mulVec w ⟨5, by decide⟩ = w.mx - Y * w.fz
    ∧ (commaInit (wrenchFaceCoeffs X Y mu)).mulVec w ⟨6, by decide⟩ = -w.my - X * w.fz
    ∧ (commaInit (wrenchFaceCoeffs X Y mu)).mulVec w ⟨7, by decide⟩ = w.my - X * w.fz)
    ∧ ((commaInit (wrenchFaceCoeffs X Y mu)).mulVec w ⟨8, by decide⟩ =
        mu * w.mx + mu * w.my - w.mz - Y * w.fx - X * w.fy - (X + Y) * mu * w.fz
    ∧ (commaInit (wrenchFaceCoeffs X Y mu)).mulVec w ⟨9, by decide⟩ =
        mu * w.mx - mu * w.my - w.mz - Y * w.fx + X * w.fy - (X + Y) * mu * w.fz
    ∧ (commaInit (wrenchFaceCoeffs X Y mu)).mulVec w ⟨10, by decide⟩ =
        -mu * w.mx + mu * w.my - w.mz + Y * w.fx - X * w.fy - (X + Y) * mu * w.fz
    ∧ (commaInit (wrenchFaceCoeffs X Y mu)).mulVec w ⟨11, by decide⟩ =
        -mu * w.mx - mu * w.my - w.mz + Y * w.fx + X * w.fy - (X + Y) * mu * w.fz)
    ∧ ((commaInit (wrenchFaceCoeffs X Y mu)).mulVec w ⟨12, by decide⟩ =
        mu * w.mx + mu * w.my + w.mz + Y * w.fx + X * w.fy - (X + Y) * mu * w.fz
    ∧ (commaInit (wrenchFaceCoeffs X Y mu)).mulVec w ⟨13, by decide⟩ =
        mu * w.mx - mu * w.my + w.mz + Y * w.fx - X * w.fy - (X + Y) * mu * w.fz
    ∧ (commaInit (wrenchFaceCoeffs X Y mu)).mulVec w ⟨14, by decide⟩ =
        -mu * w.mx + mu * w.my + w.mz - Y * w.fx + X * w.fy - (X + Y) * mu * w.fz
    ∧ (commaInit (wrenchFaceCoeffs X Y mu)).mulVec w ⟨15, by decide⟩ =
        -mu * w.mx - mu * w.my + w.mz - Y * w.fx - X * w.fy - (X + Y) * mu * w.fz) := by
  simp only [faceMatrix_mulVec_row]
  simp only [wrenchFaceCoeffs, Nat.reduceMul, Nat.reduceAdd, List.getD_cons_succ,
    List.getD_cons_zero]
  refine ⟨⟨?_, ?_, ?_, ?_⟩, ⟨?_, ?_, ?_, ?_⟩, ⟨?_, ?_, ?_, ?_⟩, ⟨?_, ?_, ?_, ?_⟩⟩ <;> ring

/-- Rows 1 to 4 of a 16-vector, one by one. -/
theorem forall_rows_lt_four (v : Fin 16 → ℚ) :
    (∀ i : Fin 16, i.val < 4 → v i ≤ 0) ↔
      (v ⟨0, by decide⟩ ≤ 0 ∧ v ⟨1, by decide⟩ ≤ 0 ∧ v ⟨2, by decide⟩ ≤ 0
        ∧ v ⟨3, by decide⟩ ≤ 0) := by
  constructor
  · intro h
    exact ⟨h _ (by decide), h _ (by decide), h _ (by decide), h _ (by decide)⟩
  · rintro ⟨h0, h1, h2, h3⟩ i hi
    fin_cases i <;> first | (exact absurd hi (by decide)) | assumption

/-- Rows 5 to 8 of a 16-vector, one by one. -/
theorem forall_rows_mid (v : Fin 16 → ℚ) :
    (∀ i : Fin 16, 4 ≤ i.val → i.val < 8 → v i ≤ 0) ↔
      (v ⟨4, by decide⟩ ≤ 0 ∧ v ⟨5, by decide⟩ ≤ 0 ∧ v ⟨6, by decide⟩ ≤ 0
        ∧ v ⟨7, by decide⟩ ≤ 0) := by
  constructor
  · intro h
    exact ⟨h _ (by decide) (by decide), h _ (by decide) (by decide),
      h _ (by decide) (by decide), h _ (by decide) (by decide)⟩
  · rintro ⟨h4, h5, h6, h7⟩ i hlo hhi
    fin_cases i <;>
      first | (exact absurd hlo (by decide)) | (exact absurd hhi (by decide)) | assumption

/-- Rows 9 to 16 of a 16-vector, one by one. -/
theorem forall_rows_ge_eight (v : Fin 16 → ℚ) :
    (∀ i : Fin 16, 8 ≤ i.val → v i ≤ 0) ↔
      ((v ⟨8, by decide⟩ ≤ 0 ∧ v ⟨9, by decide⟩ ≤ 0 ∧ v ⟨10, by decide⟩ ≤ 0
          ∧ v ⟨11, by decide⟩ ≤ 0)
        ∧ (v ⟨12, by decide⟩ ≤ 0 ∧ v ⟨13, by decide⟩ ≤ 0 ∧ v ⟨14, by decide⟩ ≤ 0
          ∧ v ⟨15, by decide⟩ ≤ 0)) := by
  constructor
  · intro h
    exact ⟨⟨h _ (by decide), h _ (by decide), h _ (by decide), h _ (by decide)⟩,
      ⟨h _ (by decide), h _ (by decide), h _ (by decide), h _ (by decide)⟩⟩
  · rintro ⟨⟨h8, h9, h10, h11⟩, ⟨h12, h13, h14, h15⟩⟩ i hlo
    fin_cases i <;> first | (exact absurd hlo (by decide)) | assumption

/-- The friction rows (rows 1 to 4 of the stored matrix). -/
theorem frictionRows_iff (X Y mu : ℚ) (w : Wrench) :
    (∀ i : Fin 16, i.val < 4 → (commaInit (wrenchFaceCoeffs X Y mu)).mulVec w i ≤ 0) ↔
      (-w.fx - mu * w.fz ≤ 0 ∧ w.fx - mu * w.fz ≤ 0
        ∧ -w.fy - mu * w.fz ≤ 0 ∧ w.fy - mu * w.fz ≤ 0) := by
  obtain ⟨⟨e0, e1, e2, e3⟩, -⟩ := faceMatrix_rows X Y mu w
  rw [forall_rows_lt_four, e0, e1, e2, e3]

/-- The centre-of-pressure rows (rows 5 to 8 of the stored matrix). -/
theorem copRows_iff (X Y mu : ℚ) (w : Wrench) :
    (∀ i : Fin 16, 4 ≤ i.val → i.val < 8 →
        (commaInit (wrenchFaceCoeffs X Y mu)).mulVec w i ≤ 0) ↔
      (-w.mx - Y * w.fz ≤ 0 ∧ w.mx - Y * w.fz ≤ 0
        ∧ -w.my - X * w.fz ≤ 0 ∧ w.my - X * w.fz ≤ 0) := by
  obtain ⟨-, ⟨e4, e5, e6, e7⟩, -⟩ := faceMatrix_rows X Y mu w
  rw [forall_rows_mid, e4, e5, e6, e7]

/-- The yaw-torque rows (rows 9 to 16 of the stored matrix). -/
theorem yawRows_iff (X Y mu : ℚ) (w : Wrench) :
    (∀ i : Fin 16, 8 ≤ i.val → (commaInit (wrenchFaceCoeffs X Y mu)).mulVec w i ≤ 0) ↔
      ((mu * w.mx + mu * w.my - w.mz - Y * w.fx - X * w.fy - (X + Y) * mu * w.fz ≤ 0
        ∧ mu * w.mx - mu * w.my - w.mz - Y * w.fx + X * w.fy - (X + Y) * mu * w.fz ≤ 0
        ∧ -mu * w.mx + mu * w.my - w.mz + Y * w.fx - X * w.fy - (X + Y) * mu * w.fz ≤ 0
        ∧ -mu * w.mx - mu * w.my - w.mz + Y * w.fx + X * w.fy - (X + Y) * mu * w.fz ≤ 0)
      ∧ (mu * w.mx + mu * w.my + w.mz + Y * w.fx + X * w.fy - (X + Y) * mu * w.fz ≤ 0
        ∧ mu * w.mx - mu * w.my + w.mz + Y * w.fx - X * w.fy - (X + Y) * mu * w.fz ≤ 0
        ∧ -mu * w.mx + mu * w.my + w.mz - Y * w.fx + X * w.fy - (X + Y) * mu * w.fz ≤ 0
        ∧ -mu * w.mx - mu * w.my + w.mz - Y * w.fx - X * w.fy - (X + Y) * mu * w.fz ≤ 0)) := by
  obtain ⟨-, -, ⟨e8, e9, e10, e11⟩, ⟨e12, e13, e14, e15⟩⟩ := faceMatrix_rows X Y mu w
  rw [forall_rows_ge_eight, e8, e9, e10, e11, e12, e13, e14, e15]

/-- Admissibility for the stored matrix splits into the three groups of rows. -/
theorem admissible_iff_groups (A : FaceMatrix) (w : Wrench) :
    admissible A w ↔
      ((∀ i : Fin 16, i.val < 4 → A.mulVec w i ≤ 0)
        ∧ (∀ i : Fin 16, 4 ≤ i.val → i.val < 8 → A.mulVec w i ≤ 0)
        ∧ (∀ i : Fin 16, 8 ≤ i.val → A.mulVec w i ≤ 0)) := by
  constructor
  · intro h
    exact ⟨fun i _ => h i, fun i _ _ => h i, fun i _ => h i⟩
  · rintro ⟨h1, h2, h3⟩ i
    by_cases ha : i.val < 4
    · exact h1 i ha
    · by_cases hb : i.val < 8
      · exact h2 i (by omega) hb
      · exact h3 i (by omega)


/-- Admissibility for the matrix stored by `wrenchFaceMatrix`, as sixteen
scalar inequalities: friction rows, centre-of-pressure rows, yaw rows. -/
theorem admissible_stored_iff (s : StabilizerTask) (X Y mu : ℚ) (w : Wrench) :
    admissible (s.wrenchFaceMatrix X Y mu).wrenchFaceMatrix_ w ↔
      ((-w.fx - mu * w.fz ≤ 0 ∧ w.fx - mu * w.fz ≤ 0
        ∧ -w.fy - mu * w.fz ≤ 0 ∧ w.fy - mu * w.fz ≤ 0)
      ∧ (-w.mx - Y * w.fz ≤ 0 ∧ w.mx - Y * w.fz ≤ 0
        ∧ -w.my - X * w.fz ≤ 0 ∧ w.my - X * w.fz ≤ 0)
      ∧ ((mu * w.mx + mu * w.my - w.mz - Y * w.fx - X * w.fy - (X + Y) * mu * w.fz ≤ 0
        ∧ mu * w.mx - mu * w.my - w.mz - Y * w.fx + X * w.fy - (X + Y) * mu * w.fz ≤ 0
        ∧ -mu * w.mx + mu * w.my - w.mz + Y * w.fx - X * w.fy - (X + Y) * mu * w.fz ≤ 0
        ∧ -mu * w.mx - mu * w.my - w.mz + Y * w.fx + X * w.fy - (X + Y) * mu * w.fz ≤ 0)
      ∧ (mu * w.mx + mu * w.my + w.mz + Y * w.fx + X * w.fy - (X + Y) * mu * w.fz ≤ 0
        ∧ mu * w.mx - mu * w.my + w.mz + Y * w.fx - X * w.fy - (X + Y) * mu * w.fz ≤ 0
        ∧ -mu * w.mx + mu * w.my + w.mz - Y * w.fx + X * w.fy - (X + Y) * mu * w.fz ≤ 0
        ∧ -mu * w.mx - mu * w.my + w.mz - Y * w.fx - X * w.fy - (X + Y) * mu * w.fz ≤ 0))) := by
  rw [wrenchFaceMatrix_stored, admissible_iff_groups, frictionRows_iff, copRows_iff,
    yawRows_iff]

/-- A wrench with small tangential moments and unit normal force is admissible
for a square sole of half-side 1/10 and friction 7/10. -/
theorem sample_admissible (mx my : ℚ) (hx : |mx| ≤ 1 / 20) (hy : |my| ≤ 1 / 20) :
    admissible (sampleTask.wrenchFaceMatrix (1 / 10) (1 / 10) (7 / 10)).wrenchFaceMatrix_
      (Wrench.mk mx my 0 0 0 1) := by
  rw [admissible_stored_iff]
  obtain ⟨hx1, hx2⟩ := abs_le.mp hx
  obtain ⟨hy1, hy2⟩ := abs_le.mp hy
  simp only [Wrench.mk_mx, Wrench.mk_my, Wrench.mk_mz, Wrench.mk_fx, Wrench.mk_fy,
    Wrench.mk_fz]
  refine ⟨⟨?_, ?_, ?_, ?_⟩, ⟨?_, ?_, ?_, ?_⟩, ⟨?_, ?_, ?_, ?_⟩, ⟨?_, ?_, ?_, ?_⟩⟩ <;> linarith

/-! ### Physical invariants of the contact wrench cone -/

/-- C2: for every X, Y, mu and every wrench admissible for the matrix built by
`wrenchFaceMatrix` with positive normal force, the centre of pressure
(-my / fz, mx / fz) lies inside the sole rectangle: |CoP.x| ≤ X and |CoP.y| ≤ Y. -/
theorem cop_inside_sole (s : StabilizerTask) (X Y mu : ℚ) (w : Wrench)
    (hadm : admissible (s.wrenchFaceMatrix X Y mu).wrenchFaceMatrix_ w)
    (hfz : 0 < w.fz) :
    |(cop w).x| ≤ X ∧ |(cop w).y| ≤ Y := by
  obtain ⟨-, ⟨h4, h5, h6, h7⟩, -⟩ := (admissible_stored_iff s X Y mu w).mp hadm
  simp only [cop]
  constructor
  · rw [abs_le]
    constructor
    · rw [le_div_iff₀ hfz]; linarith
    · rw [div_le_iff₀ hfz]; linarith
  · rw [abs_le]
    constructor
    · rw [le_div_iff₀ hfz]; linarith
    · rw [div_le_iff₀ hfz]; linarith

theorem cop_inside_sole_witness :
    admissible (sampleTask.wrenchFaceMatrix (1 / 10) (1 / 10) (7 / 10)).wrenchFaceMatrix_
        (Wrench.mk (1 / 20) (-1 / 20) 0 0 0 1)
      ∧ 0 < (Wrench.mk (1 / 20) (-1 / 20) 0 0 0 1).fz
      ∧ |(cop (Wrench.mk (1 / 20) (-1 / 20) 0 0 0 1)).x| ≤ 1 / 10
      ∧ |(cop (Wrench.mk (1 / 20) (-1 / 20) 0 0 0 1)).y| ≤ 1 / 10 :=
  ⟨sample_admissible _ _ (by norm_num [abs_le]) (by norm_num [abs_le]),
    by norm_num,
    cop_inside_sole sampleTask (1 / 10) (1 / 10) (7 / 10) _
      (sample_admissible _ _ (by norm_num [abs_le]) (by norm_num [abs_le]))
      (by norm_num)⟩

/-- C3: every wrench admissible for the matrix built by `wrenchFaceMatrix` has
its tangential force in the linearized friction pyramid, |fx| ≤ mu fz and
|fy| ≤ mu fz; conversely a wrench with |fx| > mu fz or |fy| > mu fz violates
at least one of the first four rows. -/
theorem friction_pyramid (s : StabilizerTask) (X Y mu : ℚ) (w : Wrench) :
    (admissible (s.wrenchFaceMatrix X Y mu).wrenchFaceMatrix_ w →
        |w.fx| ≤ mu * w.fz ∧ |w.fy| ≤ mu * w.fz)
      ∧ ((mu * w.fz < |w.fx| ∨ mu * w.fz < |w.fy|) →
        ∃ i : Fin 16, i.val < 4 ∧
          0 < (s.wrenchFaceMatrix X Y mu).wrenchFaceMatrix_.mulVec w i) := by
  obtain ⟨⟨e0, e1, e2, e3⟩, -⟩ := faceMatrix_rows X Y mu w
  constructor
  · intro hadm
    obtain ⟨⟨h0, h1, h2, h3⟩, -⟩ := (admissible_stored_iff s X Y mu w).mp hadm
    exact ⟨abs_le.mpr ⟨by linarith, by linarith⟩, abs_le.mpr ⟨by linarith, by linarith⟩⟩
  · rw [wrenchFaceMatrix_stored]
    rintro (h | h)
    · rcases lt_abs.mp h with h | h
      · exact ⟨⟨1, by decide⟩, by decide, by rw [e1]; linarith⟩
      · exact ⟨⟨0, by decide⟩, by decide, by rw [e0]; linarith⟩
    · rcases lt_abs.mp h with h | h
      · exact ⟨⟨3, by decide⟩, by decide, by rw [e3]; linarith⟩
      · exact ⟨⟨2, by decide⟩, by decide, by rw [e2]; linarith⟩

theorem friction_pyramid_witness :
    (admissible (sampleTask.wrenchFaceMatrix (1 / 10) (1 / 10) (7 / 10)).wrenchFaceMatrix_
        (Wrench.mk (1 / 40) 0 0 0 0 1)
      ∧ |(Wrench.mk (1 / 40) 0 0 0 0 1).fx| ≤ 7 / 10 * (Wrench.mk (1 / 40) 0 0 0 0 1).fz
      ∧ |(Wrench.mk (1 / 40) 0 0 0 0 1).fy| ≤ 7 / 10 * (Wrench.mk (1 / 40) 0 0 0 0 1).fz)
    ∧ ((7 / 10 * (Wrench.mk 0 0 0 1 0 1).fz < |(Wrench.mk 0 0 0 1 0 1).fx|
        ∨ 7 / 10 * (Wrench.mk 0 0 0 1 0 1).fz < |(Wrench.mk 0 0 0 1 0 1).fy|)
      ∧ ∃ i : Fin 16, i.val < 4 ∧
          0 < (sampleTask.wrenchFaceMatrix (1 / 10) (1 / 10)
            (7 / 10)).wrenchFaceMatrix_.mulVec (Wrench.mk 0 0 0 1 0 1) i) :=
  ⟨⟨sample_admissible _ _ (by norm_num [abs_le]) (by norm_num [abs_le]),
      (friction_pyramid sampleTask (1 / 10) (1 / 10) (7 / 10) _).1
        (sample_admissible _ _ (by norm_num [abs_le]) (by norm_num [abs_le]))⟩,
    ⟨Or.inl (by norm_num),
      (friction_pyramid sampleTask (1 / 10) (1 / 10) (7 / 10) _).2
        (Or.inl (by norm_num))⟩⟩

/-- C4: unilateral contact. For every X, Y and every mu > 0, every wrench
admissible for the matrix built by `wrenchFaceMatrix` has fz ≥ 0. -/
theorem unilateral_contact (s : StabilizerTask) (X Y mu : ℚ) (w : Wrench)
    (hmu : 0 < mu)
    (hadm : admissible (s.wrenchFaceMatrix X Y mu).wrenchFaceMatrix_ w) :
    0 ≤ w.fz := by
  obtain ⟨⟨h0, h1, -, -⟩, -⟩ := (admissible_stored_iff s X Y mu w).mp hadm
  by_contra hneg
  have hlt : w.fz < 0 := lt_of_not_ge hneg
  have hprod : mu * w.fz < 0 := mul_neg_of_pos_of_neg hmu hlt
  linarith

theorem unilateral_contact_witness :
    (0 : ℚ) < 7 / 10
      ∧ admissible (sampleTask.wrenchFaceMatrix (1 / 10) (1 / 10) (7 / 10)).wrenchFaceMatrix_
          (Wrench.mk 0 (1 / 40) 0 0 0 1)
      ∧ 0 ≤ (Wrench.mk 0 (1 / 40) 0 0 0 1).fz :=
  ⟨by norm_num,
    sample_admissible _ _ (by norm_num [abs_le]) (by norm_num [abs_le]),
    unilateral_contact sampleTask (1 / 10) (1 / 10) (7 / 10) _ (by norm_num)
      (sample_admissible _ _ (by norm_num [abs_le]) (by norm_num [abs_le]))⟩


/-- C5: the last eight rows of the matrix built by `wrenchFaceMatrix` are
exactly the yaw-torque bounds
-mu (X+Y) fz + |Y fx - mu mx| + |X fy - mu my| ≤ mz
  ≤ mu (X+Y) fz - |Y fx + mu mx| - |X fy + mu my|,
and every admissible wrench has |mz| ≤ mu (X+Y) fz. -/
theorem yaw_torque_bounds (s : StabilizerTask) (X Y mu : ℚ) (w : Wrench) :
    ((∀ i : Fin 16, 8 ≤ i.val →
        (s.wrenchFaceMatrix X Y mu).wrenchFaceMatrix_.mulVec w i ≤ 0) ↔
      (-mu * (X + Y) * w.fz + |Y * w.fx - mu * w.mx| + |X * w.fy - mu * w.my| ≤ w.mz
        ∧ w.mz ≤ mu * (X + Y) * w.fz - |Y * w.fx + mu * w.mx| - |X * w.fy + mu * w.my|))
    ∧ (admissible (s.wrenchFaceMatrix X Y mu).wrenchFaceMatrix_ w →
        |w.mz| ≤ mu * (X + Y) * w.fz) := by
  have key : (∀ i : Fin 16, 8 ≤ i.val →
        (s.wrenchFaceMatrix X Y mu).wrenchFaceMatrix_.mulVec w i ≤ 0) ↔
      (-mu * (X + Y) * w.fz + |Y * w.fx - mu * w.mx| + |X * w.fy - mu * w.my| ≤ w.mz
        ∧ w.mz ≤ mu * (X + Y) * w.fz - |Y * w.fx + mu * w.mx| - |X * w.fy + mu * w.my|) := by
    rw [wrenchFaceMatrix_stored, yawRows_iff]
    constructor
    · rintro ⟨⟨h8, h9, h10, h11⟩, ⟨h12, h13, h14, h15⟩⟩
      constructor
      · rcases abs_cases (Y * w.fx - mu * w.mx) with ⟨ha, -⟩ | ⟨ha, -⟩ <;>
          rcases abs_cases (X * w.fy - mu * w.my) with ⟨hb, -⟩ | ⟨hb, -⟩ <;>
            rw [ha, hb] <;> linarith
      · rcases abs_cases (Y * w.fx + mu * w.mx) with ⟨ha, -⟩ | ⟨ha, -⟩ <;>
          rcases abs_cases (X * w.fy + mu * w.my) with ⟨hb, -⟩ | ⟨hb, -⟩ <;>
            rw [ha, hb] <;> linarith
    · rintro ⟨hl, hu⟩
      have a1 := le_abs_self (Y * w.fx - mu * w.mx)
      have a2 := neg_abs_le (Y * w.fx - mu * w.mx)
      have b1 := le_abs_self (X * w.fy - mu * w.my)
      have b2 := neg_abs_le (X * w.fy - mu * w.my)
      have c1 := le_abs_self (Y * w.fx + mu * w.mx)
      have c2 := neg_abs_le (Y * w.fx + mu * w.mx)
      have d1 := le_abs_self (X * w.fy + mu * w.my)
      have d2 := neg_abs_le (X * w.fy + mu * w.my)
      refine ⟨⟨?_, ?_, ?_, ?_⟩, ⟨?_, ?_, ?_, ?_⟩⟩ <;> linarith
  refine ⟨key, fun hadm => ?_⟩
  obtain ⟨hl, hu⟩ := key.mp fun i _ => hadm i
  have a0 := abs_nonneg (Y * w.fx - mu * w.mx)
  have b0 := abs_nonneg (X * w.fy - mu * w.my)
  have c0 := abs_nonneg (Y * w.fx + mu * w.mx)
  have d0 := abs_nonneg (X * w.fy + mu * w.my)
  exact abs_le.mpr ⟨by linarith, by linarith⟩

theorem yaw_torque_bounds_witness :
    admissible (sampleTask.wrenchFaceMatrix (1 / 10) (1 / 10) (7 / 10)).wrenchFaceMatrix_
        (Wrench.mk (1 / 40) (1 / 40) 0 0 0 1)
      ∧ |(Wrench.mk (1 / 40) (1 / 40) 0 0 0 1).mz|
          ≤ 7 / 10 * (1 / 10 + 1 / 10) * (Wrench.mk (1 / 40) (1 / 40) 0 0 0 1).fz :=
  ⟨sample_admissible _ _ (by norm_num [abs_le]) (by norm_num [abs_le]),
    (yaw_torque_bounds sampleTask (1 / 10) (1 / 10) (7 / 10) _).2
      (sample_admissible _ _ (by norm_num [abs_le]) (by norm_num [abs_le]))⟩

/-- The admissible region of any face matrix is closed under non-negative
combinations. -/
theorem admissible_combo (A : FaceMatrix) (w₁ w₂ : Wrench) (a b : ℚ)
    (h₁ : admissible A w₁) (h₂ : admissible A w₂) (ha : 0 ≤ a) (hb : 0 ≤ b) :
    admissible A (a • w₁ + b • w₂) := by
  intro i
  rw [Matrix.mulVec_add, Matrix.mulVec_smul, Matrix.mulVec_smul]
  simp only [Pi.add_apply, Pi.smul_apply, smul_eq_mul]
  exact add_nonpos (mul_nonpos_iff.mpr (Or.inl ⟨ha, h₁ i⟩))
    (mul_nonpos_iff.mpr (Or.inl ⟨hb, h₂ i⟩))

/-- C6: for every X, Y, mu the admissible set of the matrix built by
`wrenchFaceMatrix` is a non-empty convex cone: the zero wrench is admissible
and a • w₁ + b • w₂ is admissible for admissible w₁, w₂ and a, b ≥ 0. -/
theorem admissible_convex_cone (s : StabilizerTask) (X Y mu : ℚ) :
    admissible (s.wrenchFaceMatrix X Y mu).wrenchFaceMatrix_ 0
      ∧ ∀ (w₁ w₂ : Wrench) (a b : ℚ),
          admissible (s.wrenchFaceMatrix X Y mu).wrenchFaceMatrix_ w₁ →
          admissible (s.wrenchFaceMatrix X Y mu).wrenchFaceMatrix_ w₂ →
          0 ≤ a → 0 ≤ b →
          admissible (s.wrenchFaceMatrix X Y mu).wrenchFaceMatrix_ (a • w₁ + b • w₂) := by
  refine ⟨fun i => ?_, fun w₁ w₂ a b h₁ h₂ ha hb => admissible_combo _ w₁ w₂ a b h₁ h₂ ha hb⟩
  rw [Matrix.mulVec_zero]
  exact le_refl _

theorem admissible_convex_cone_witness :
    admissible (sampleTask.wrenchFaceMatrix (1 / 10) (1 / 10) (7 / 10)).wrenchFaceMatrix_
        (Wrench.mk (1 / 20) 0 0 0 0 1)
      ∧ admissible (sampleTask.wrenchFaceMatrix (1 / 10) (1 / 10) (7 / 10)).wrenchFaceMatrix_
        (Wrench.mk 0 (1 / 20) 0 0 0 1)
      ∧ (0 : ℚ) ≤ 2 ∧ (0 : ℚ) ≤ 3
      ∧ admissible (sampleTask.wrenchFaceMatrix (1 / 10) (1 / 10) (7 / 10)).wrenchFaceMatrix_
        ((2 : ℚ) • Wrench.mk (1 / 20) 0 0 0 0 1 + (3 : ℚ) • Wrench.mk 0 (1 / 20) 0 0 0 1) :=
  ⟨sample_admissible _ _ (by norm_num [abs_le]) (by norm_num [abs_le]),
    sample_admissible _ _ (by norm_num [abs_le]) (by norm_num [abs_le]),
    by norm_num, by norm_num,
    (admissible_convex_cone sampleTask (1 / 10) (1 / 10) (7 / 10)).2 _ _ 2 3
      (sample_admissible _ _ (by norm_num [abs_le]) (by norm_num [abs_le]))
      (sample_admissible _ _ (by norm_num [abs_le]) (by norm_num [abs_le]))
      (by norm_num) (by norm_num)⟩

/-! ### Accessors -/

/-- C7: for every configuration, `contactAdmittance()` is zero on the three
force components and on the z moment, its x-moment component is
copAdmittance.y and its y-moment component is copAdmittance.x. -/
theorem contactAdmittance_components (s : StabilizerTask) :
    s.contactAdmittance.force = { x := 0, y := 0, z := 0 }
      ∧ s.contactAdmittance.couple.z = 0
      ∧ s.contactAdmittance.couple.x = s.c_.copAdmittance.y
      ∧ s.contactAdmittance.couple.y = s.c_.copAdmittance.x :=
  ⟨rfl, rfl, rfl, rfl⟩

/-- The count under a key is non-zero exactly when the key is stored. -/
theorem contactCount_ne_zero_iff (contacts : List (ContactState × Contact))
    (state : ContactState) :
    contactCount contacts state ≠ 0 ↔ state ∈ contacts.map Prod.fst := by
  unfold contactCount
  rw [Nat.ne_zero_iff_zero_lt, List.countP_pos_iff]
  simp only [decide_eq_true_eq, List.mem_map]

theorem inContact_iff (s : StabilizerTask) (state : ContactState) :
    s.inContact state = true ↔ state ∈ s.contactKeys := by
  unfold StabilizerTask.inContact StabilizerTask.contactKeys
  rw [decide_eq_true_eq, contactCount_ne_zero_iff]

/-- C8: `inContact(s)` is true iff `s` is a key of the contact map, and
`inDoubleSupport()` is true iff both Left and Right are keys; hence with
exactly one of them present, or none, `inDoubleSupport()` is false. -/
theorem inContact_inDoubleSupport (s : StabilizerTask) :
    (∀ state : ContactState, s.inContact state = true ↔ state ∈ s.contactKeys)
      ∧ (s.inDoubleSupport = true ↔
          ContactState.Left ∈ s.contactKeys ∧ ContactState.Right ∈ s.contactKeys)
      ∧ ((ContactState.Left ∈ s.contactKeys ∧ ContactState.Right ∉ s.contactKeys)
            ∨ (ContactState.Left ∉ s.contactKeys ∧ ContactState.Right ∈ s.contactKeys) →
          s.inDoubleSupport = false)
      ∧ (ContactState.Left ∉ s.contactKeys ∧ ContactState.Right ∉ s.contactKeys →
          s.inDoubleSupport = false) := by
  have hds : s.inDoubleSupport = true ↔
      ContactState.Left ∈ s.contactKeys ∧ ContactState.Right ∈ s.contactKeys := by
    unfold StabilizerTask.inDoubleSupport
    rw [Bool.and_eq_true, inContact_iff, inContact_iff]
  refine ⟨inContact_iff s, hds, ?_, ?_⟩
  · intro h
    rw [← Bool.not_eq_true, hds]
    rintro ⟨hl, hr⟩
    rcases h with ⟨-, hnr⟩ | ⟨hnl, -⟩
    · exact hnr hr
    · exact hnl hl
  · rintro ⟨hnl, -⟩
    rw [← Bool.not_eq_true, hds]
    exact fun h => hnl h.1


theorem inContact_inDoubleSupport_witness :
    (((ContactState.Left ∈ leftSupportTask.contactKeys
          ∧ ContactState.Right ∉ leftSupportTask.contactKeys)
        ∨ (ContactState.Left ∉ leftSupportTask.contactKeys
          ∧ ContactState.Right ∈ leftSupportTask.contactKeys))
      ∧ leftSupportTask.inDoubleSupport = false)
    ∧ ((ContactState.Left ∉ sampleTask.contactKeys
          ∧ ContactState.Right ∉ sampleTask.contactKeys)
      ∧ sampleTask.inDoubleSupport = false) :=
  ⟨⟨Or.inl ⟨by decide, by decide⟩,
      (inContact_inDoubleSupport leftSupportTask).2.2.1 (Or.inl ⟨by decide, by decide⟩)⟩,
    ⟨⟨by decide, by decide⟩,
      (inContact_inDoubleSupport sampleTask).2.2.2 ⟨by decide, by decide⟩⟩⟩

/-! ### Gain clamping -/

/-- Clamping to a non-empty range yields the nearest point of the range. -/
theorem clamp_isClampOf (v lo hi : ℚ) (h : lo ≤ hi) : IsClampOf v lo hi (clamp v lo hi) := by
  unfold IsClampOf clamp
  split_ifs with h1 h2
  · refine ⟨h, le_refl _, ?_, ?_, ?_⟩
    · intro _ h3; exact absurd h1 (not_lt.mpr h3)
    · intro h3; exfalso; linarith
    · intro _; rfl
  · refine ⟨le_refl _, h, ?_, ?_, ?_⟩
    · intro h3 _; exact absurd h2 (not_lt.mpr h3)
    · intro _; rfl
    · intro h3; exact absurd h3 h1
  · refine ⟨not_lt.mp h2, not_lt.mp h1, ?_, ?_, ?_⟩
    · intro _ _; rfl
    · intro h3; exact absurd h3 h2
    · intro h3; exact absurd h3 h1

/-- C9: for every configuration passed to `configure()`, after `checkGains()`
every stored gain is the configured value clamped to its section-6 range
(dcmPropGain in [0, 20], dcmIntegralGain in [0, 100], dcmDerivGain in [0, 2],
comAdmittance in [0, 20] and copAdmittance in [0, 1/10] per axis, dfzAdmittance
in [0, 5e-4], dfzDamping in [0, 10]), out-of-range values being replaced by the
nearest bound; in particular dcmPropGain = 50 is stored as 20 and
dcmIntegralGain = -1 is stored as 0. -/
theorem checkGains_clamps (s : StabilizerTask) (cfg : StabilizerConfiguration) :
    (IsClampOf cfg.dcmPropGain 0 20 ((s.configure cfg).checkGains).c_.dcmPropGain
      ∧ IsClampOf cfg.dcmIntegralGain 0 100 ((s.configure cfg).checkGains).c_.dcmIntegralGain
      ∧ IsClampOf cfg.dcmDerivGain 0 2 ((s.configure cfg).checkGains).c_.dcmDerivGain
      ∧ IsClampOf cfg.comAdmittance.x 0 20 ((s.configure cfg).checkGains).c_.comAdmittance.x
      ∧ IsClampOf cfg.comAdmittance.y 0 20 ((s.configure cfg).checkGains).c_.comAdmittance.y
      ∧ IsClampOf cfg.copAdmittance.x 0 (1 / 10)
          ((s.configure cfg).checkGains).c_.copAdmittance.x
      ∧ IsClampOf cfg.copAdmittance.y 0 (1 / 10)
          ((s.configure cfg).checkGains).c_.copAdmittance.y
      ∧ IsClampOf cfg.dfzAdmittance 0 (5 / 10000)
          ((s.configure cfg).checkGains).c_.dfzAdmittance
      ∧ IsClampOf cfg.dfzDamping 0 10 ((s.configure cfg).checkGains).c_.dfzDamping)
    ∧ (cfg.dcmPropGain = 50 → ((s.configure cfg).checkGains).c_.dcmPropGain = 20)
    ∧ (cfg.dcmIntegralGain = -1 → ((s.configure cfg).checkGains).c_.dcmIntegralGain = 0) := by
  have hP := clamp_isClampOf cfg.dcmPropGain 0 20 (by norm_num)
  have hI := clamp_isClampOf cfg.dcmIntegralGain 0 100 (by norm_num)
  refine ⟨⟨hP, hI, clamp_isClampOf _ 0 2 (by norm_num), clamp_isClampOf _ 0 20 (by norm_num),
    clamp_isClampOf _ 0 20 (by norm_num), clamp_isClampOf _ 0 (1 / 10) (by norm_num),
    clamp_isClampOf _ 0 (1 / 10) (by norm_num), clamp_isClampOf _ 0 (5 / 10000) (by norm_num),
    clamp_isClampOf _ 0 10 (by norm_num)⟩, ?_, ?_⟩
  · intro h50
    exact hP.2.2.2.2 (by rw [h50]; norm_num)
  · intro hneg
    exact hI.2.2.2.1 (by rw [hneg]; norm_num)

theorem checkGains_clamps_witness :
    (sampleConfig.dcmPropGain = 50
      ∧ ((sampleTask.configure sampleConfig).checkGains).c_.dcmPropGain = 20)
    ∧ (sampleConfig.dcmIntegralGain = -1
      ∧ ((sampleTask.configure sampleConfig).checkGains).c_.dcmIntegralGain = 0) :=
  ⟨⟨rfl, (checkGains_clamps sampleTask sampleConfig).2.1 rfl⟩,
    ⟨rfl, (checkGains_clamps sampleTask sampleConfig).2.2 rfl⟩⟩

/-! ### Constants and measurement accessors -/

/-- C13: the constants declared by `StabilizerTask` equal the values fixed by
the specification (GRAVITY = 9.80665, MIN_DS_PRESSURE = 15,
MIN_NET_TOTAL_FORCE_ZMP = 1, MAX_AVERAGE_DCM_ERROR = 0.05, MAX_DCM_P_GAIN = 20,
MAX_DCM_I_GAIN = 100, MAX_DCM_D_GAIN = 2, MAX_COM_ADMITTANCE = 20,
MAX_COP_ADMITTANCE = 0.1, MAX_DFZ_ADMITTANCE = 5e-4, MAX_DFZ_DAMPING = 10,
MAX_FDC_RX/RY/RZ_VEL = 0.2), and the gravity vector of a constructed task is
(0, 0, -GRAVITY). -/
theorem constants_eq_spec :
    (GRAVITY = 980665 / 100000 ∧ MIN_DS_PRESSURE = 15 ∧ MIN_NET_TOTAL_FORCE_ZMP = 1
      ∧ MAX_AVERAGE_DCM_ERROR = 5 / 100)
    ∧ (MAX_DCM_P_GAIN = 20 ∧ MAX_DCM_I_GAIN = 100 ∧ MAX_DCM_D_GAIN = 2)
    ∧ (MAX_COM_ADMITTANCE = 20 ∧ MAX_COP_ADMITTANCE = 1 / 10
      ∧ MAX_DFZ_ADMITTANCE = 5 / 10000 ∧ MAX_DFZ_DAMPING = 10)
    ∧ (MAX_FDC_RX_VEL = 2 / 10 ∧ MAX_FDC_RY_VEL = 2 / 10 ∧ MAX_FDC_RZ_VEL = 2 / 10)
    ∧ ∀ (contacts : List (ContactState × Contact)) (c : StabilizerConfiguration)
        (A : FaceMatrix),
        ({ contacts_ := contacts, c_ := c, wrenchFaceMatrix_ := A } : StabilizerTask).gravity_
          = { x := 0, y := 0, z := -(980665 / 100000) } := by
  refine ⟨⟨?_, rfl, rfl, ?_⟩, ⟨rfl, rfl, rfl⟩, ⟨rfl, rfl, rfl, rfl⟩, ⟨?_, ?_, ?_⟩, ?_⟩
  · norm_num [GRAVITY]
  · norm_num [MAX_AVERAGE_DCM_ERROR]
  · norm_num [MAX_FDC_RX_VEL]
  · norm_num [MAX_FDC_RY_VEL]
  · norm_num [MAX_FDC_RZ_VEL]
  · intro contacts c A
    show ({ x := 0, y := 0, z := -GRAVITY } : Vector3d) = _
    norm_num [GRAVITY]

/-- C14: `measuredCoMd()` returns the stored measured CoM position
`measuredCoM_`, not the stored velocity `measuredCoMd_`: for every state it
equals `measuredCoM()`, whatever the value of `measuredCoMd_`. -/
theorem measuredCoMd_returns_position :
    (∀ s : StabilizerTask, s.measuredCoMd = s.measuredCoM_ ∧ s.measuredCoMd = s.measuredCoM)
      ∧ (∀ (s : StabilizerTask) (v : Vector3d),
          ({ s with measuredCoMd_ := v }).measuredCoMd = s.measuredCoM)
      ∧ ∃ s : StabilizerTask, s.measuredCoMd ≠ s.measuredCoMd_ := by
  refine ⟨fun s => ⟨rfl, rfl⟩, fun s v => rfl, movingTask, ?_⟩
  intro h
  have hx : (0 : ℚ) = 1 / 10 := congrArg Vector3d.x h
  norm_num at hx


/-! ### Static stance -/

/-- C22: for all X, Y, mu ≥ 0 and every fz ≥ 0 the wrench with zero moment,
zero tangential force and normal force fz is admissible for the matrix built
by `wrenchFaceMatrix`, and for fz > 0 its CoP is (0, 0); in particular with
X = Y = 0.1 and mu = 0.7 each foot can carry fz = m g / 2 with m = 38 (the
default `mass_`) and g = 9.80665, the two forces summing to (0, 0, m g). -/
theorem static_stance_admissible (s : StabilizerTask) (X Y mu fz : ℚ) :
    (0 ≤ X → 0 ≤ Y → 0 ≤ mu → 0 ≤ fz →
        admissible (s.wrenchFaceMatrix X Y mu).wrenchFaceMatrix_ (Wrench.mk 0 0 0 0 0 fz))
      ∧ (0 < fz → cop (Wrench.mk 0 0 0 0 0 fz) = { x := 0, y := 0 })
      ∧ (sampleTask.mass_ = 38 ∧ sampleTask.leftFootRatio_ = 1 / 2
          ∧ GRAVITY = 980665 / 100000
          ∧ admissible (s.wrenchFaceMatrix (1 / 10) (1 / 10) (7 / 10)).wrenchFaceMatrix_
              (Wrench.mk 0 0 0 0 0 (sampleTask.mass_ * GRAVITY / 2))
          ∧ (Wrench.mk 0 0 0 0 0 (sampleTask.mass_ * GRAVITY / 2)).fx
              + (Wrench.mk 0 0 0 0 0 (sampleTask.mass_ * GRAVITY / 2)).fx = 0
          ∧ (Wrench.mk 0 0 0 0 0 (sampleTask.mass_ * GRAVITY / 2)).fy
              + (Wrench.mk 0 0 0 0 0 (sampleTask.mass_ * GRAVITY / 2)).fy = 0
          ∧ (Wrench.mk 0 0 0 0 0 (sampleTask.mass_ * GRAVITY / 2)).fz
              + (Wrench.mk 0 0 0 0 0 (sampleTask.mass_ * GRAVITY / 2)).fz
              = sampleTask.mass_ * GRAVITY) := by
  have hgen : ∀ X Y mu fz : ℚ, 0 ≤ X → 0 ≤ Y → 0 ≤ mu → 0 ≤ fz →
      admissible (s.wrenchFaceMatrix X Y mu).wrenchFaceMatrix_
        (Wrench.mk 0 0 0 0 0 fz) := by
    intro X Y mu fz hX hY hmu hfz
    rw [admissible_stored_iff]
    simp only [Wrench.mk_mx, Wrench.mk_my, Wrench.mk_mz, Wrench.mk_fx, Wrench.mk_fy,
      Wrench.mk_fz]
    have h1 : 0 ≤ mu * fz := mul_nonneg hmu hfz
    have h2 : 0 ≤ X * fz := mul_nonneg hX hfz
    have h3 : 0 ≤ Y * fz := mul_nonneg hY hfz
    have h4 : 0 ≤ (X + Y) * mu * fz := mul_nonneg (mul_nonneg (add_nonneg hX hY) hmu) hfz
    refine ⟨⟨?_, ?_, ?_, ?_⟩, ⟨?_, ?_, ?_, ?_⟩, ⟨?_, ?_, ?_, ?_⟩, ⟨?_, ?_, ?_, ?_⟩⟩ <;>
      linarith
  refine ⟨hgen X Y mu fz, fun _ => ?_, ?_, ?_, ?_, ?_, ?_, ?_, ?_⟩
  · simp [cop, Wrench.mk_mx, Wrench.mk_my]
  · norm_num [sampleTask]
  · norm_num [sampleTask]
  · norm_num [GRAVITY]
  · exact hgen _ _ _ _ (by norm_num) (by norm_num) (by norm_num)
      (by norm_num [sampleTask, GRAVITY])
  · simp
  · simp
  · simp only [Wrench.mk_fz]; ring

theorem static_stance_admissible_witness :
    ((0 : ℚ) ≤ 1 / 10 ∧ (0 : ℚ) ≤ 1 / 10 ∧ (0 : ℚ) ≤ 7 / 10 ∧ (0 : ℚ) ≤ 100
      ∧ admissible (sampleTask.wrenchFaceMatrix (1 / 10) (1 / 10) (7 / 10)).wrenchFaceMatrix_
          (Wrench.mk 0 0 0 0 0 100))
    ∧ ((0 : ℚ) < 100 ∧ cop (Wrench.mk 0 0 0 0 0 100) = { x := 0, y := 0 }) :=
  ⟨⟨by norm_num, by norm_num, by norm_num, by norm_num,
      (static_stance_admissible sampleTask (1 / 10) (1 / 10) (7 / 10) 100).1
        (by norm_num) (by norm_num) (by norm_num) (by norm_num)⟩,
    ⟨by norm_num,
      (static_stance_admissible sampleTask (1 / 10) (1 / 10) (7 / 10) 100).2.1
        (by norm_num)⟩⟩

end lipm_stabilizer
end mc_tasks

namespace mc_rtc

/-! ## Theorems on `Configuration` -/

/-- An index that fits `int` survives the round trip through `static_cast<int>`. -/
theorem castIndex_of_lt (i : ℕ) (h : i < 2147483648) : castIndex i = i := by
  unfold castIndex toSizeT staticCastInt
  split_ifs <;> omega

/-- Reading an array through the cast index, for an array whose indices fit `int`. -/
theorem index_castIndex (xs : List Json) (i : ℕ) (hi : i < xs.length)
    (hlen : xs.length ≤ 2147483648) :
    (Json.array xs).index (castIndex i) = xs.get ⟨i, hi⟩ := by
  rw [castIndex_of_lt i (by omega)]
  show xs.getD i Json.null = _
  rw [List.getD_eq_getElem _ _ hi]
  rfl

/-- The indexed loop over an array visits its elements in order. -/
theorem forLoop_array {σ : Type} (step : ℕ → Json → σ → Except Thrown σ) (xs : List Json)
    (hlen : xs.length ≤ 2147483648) :
    ∀ (n i : ℕ) (st : σ), i + n = xs.length →
      forLoop (fun k s => step k ((Json.array xs).index (castIndex k)) s) n i st
        = foldIdx step (xs.drop i) i st := by
  intro n
  induction n with
  | zero =>
    intro i st h
    have hnil : xs.drop i = [] := List.drop_eq_nil_of_le (by omega)
    rw [hnil]
    rfl
  | succ n ih =>
    intro i st h
    have hi : i < xs.length := by omega
    rw [List.drop_eq_getElem_cons hi]
    have hidx := index_castIndex xs i hi hlen
    simp only [forLoop, foldIdx, hidx, List.get_eq_getElem]
    cases step i xs[i] st with
    | error e => rfl
    | ok st1 => exact ih (i + 1) st1 (by omega)

/-- The lookup throws `Configuration::Exception` exactly when the key is not stored. -/
theorem call_of_has_false (c : Configuration) (key : String) (h : c.has key = false) :
    ∃ msg, c.call key = Except.error (Thrown.Exception msg) := by
  unfold Configuration.has at h
  unfold Configuration.call
  split
  · rename_i members hv
    rw [hv] at h
    simp only at h
    cases hl : members.lookup key with
    | none => exact ⟨_, rfl⟩
    | some j => rw [hl] at h; simp at h
  · exact ⟨_, rfl⟩

theorem call_of_has_true (c : Configuration) (key : String) (h : c.has key = true) :
    ∃ entry, c.call key = Except.ok entry := by
  unfold Configuration.has at h
  unfold Configuration.call
  split
  · rename_i members hv
    rw [hv] at h
    simp only at h
    cases hl : members.lookup key with
    | none => rw [hl] at h; simp at h
    | some j => exact ⟨_, rfl⟩
  · rename_i hv
    split at h
    · rename_i members hm
      exact absurd hm (hv members)
    · exact absurd h (by simp)

/-! ### Accessors with a default -/

/-- The guarded block returns the handler when the body throws
`Configuration::Exception`. -/
theorem tryCatchException_error {α : Type} (msg : String) (h : Except Thrown α) :
    tryCatchException (Except.error (Thrown.Exception msg)) h = h := rfl

/-- C15: `operator()(key, default)` never fails with a
`Configuration::Exception`; for every configuration, key and default `v` it
returns `v` when the key is not stored or the stored value does not convert to
`T`, and otherwise the stored value converted to `T`. -/
theorem callDefault_spec {T : Type} (conv : Configuration → Except Thrown T)
    (c : Configuration) (key : String) (v : T) :
    (∀ msg, c.callDefault conv key v ≠ Except.error (Thrown.Exception msg))
      ∧ (c.has key = false → c.callDefault conv key v = Except.ok v)
      ∧ (c.has key = true → ∃ entry, c.call key = Except.ok entry
          ∧ (∀ msg, conv entry = Except.error (Thrown.Exception msg) →
              c.callDefault conv key v = Except.ok v)
          ∧ (∀ t, conv entry = Except.ok t → c.callDefault conv key v = Except.ok t)) := by
  refine ⟨?_, ?_, ?_⟩
  · intro msg
    unfold Configuration.callDefault tryCatchException
    split
    · intro h; cases h
    · intro h; cases h
    · intro h; cases h
  · intro h
    obtain ⟨msg, hc⟩ := call_of_has_false c key h
    unfold Configuration.callDefault Configuration.callAs
    rw [hc]
    rfl
  · intro h
    obtain ⟨entry, hc⟩ := call_of_has_true c key h
    refine ⟨entry, hc, ?_, ?_⟩
    · intro msg hconv
      unfold Configuration.callDefault Configuration.callAs
      rw [hc]
      simp only
      rw [hconv]
      rfl
    · intro t hconv
      unfold Configuration.callDefault Configuration.callAs
      rw [hc]
      simp only
      rw [hconv]
      rfl

theorem callDefault_spec_witness :
    (sampleObject.has "missing" = false
      ∧ sampleObject.callDefault Configuration.toInt "missing" 3 = Except.ok 3)
    ∧ (sampleObject.has "name" = true
      ∧ sampleObject.callDefault Configuration.toInt "name" 3 = Except.ok 3)
    ∧ (sampleObject.has "n" = true
      ∧ sampleObject.callDefault Configuration.toInt "n" 3 = Except.ok 7) :=
  ⟨⟨by decide, (callDefault_spec Configuration.toInt sampleObject "missing" 3).2.1 (by decide)⟩,
    ⟨by decide, by
      obtain ⟨entry, hc, hbad, -⟩ :=
        (callDefault_spec Configuration.toInt sampleObject "name" 3).2.2 (by decide)
      have he : entry = { v := Json.string "hrp" } := by
        have h2 : sampleObject.call "name" = Except.ok { v := Json.string "hrp" } := rfl
        rw [h2] at hc
        cases hc
        rfl
      exact hbad "Stored Json value is not an int" (by rw [he]; rfl)⟩,
    ⟨by decide, by
      obtain ⟨entry, hc, -, hgood⟩ :=
        (callDefault_spec Configuration.toInt sampleObject "n" 3).2.2 (by decide)
      have he : entry = { v := Json.int 7 } := by
        have h2 : sampleObject.call "n" = Except.ok { v := Json.int 7 } := rfl
        rw [h2] at hc
        cases hc
        rfl
      exact hgood 7 (by rw [he]; rfl)⟩⟩

/-- C16: `operator()(key, T & v)` leaves `v` unchanged whenever the key is not
stored, no exception escaping, and when the key is stored with a value that
converts to `T` it sets `v` to that value. -/
theorem callRef_spec {T : Type} (conv : Configuration → Except Thrown T)
    (c : Configuration) (key : String) (v : T) :
    (c.has key = false → c.callRef conv key v = Except.ok v)
      ∧ (c.has key = true → ∃ entry, c.call key = Except.ok entry
          ∧ ∀ t, conv entry = Except.ok t → c.callRef conv key v = Except.ok t) := by
  refine ⟨?_, ?_⟩
  · intro h
    obtain ⟨msg, hc⟩ := call_of_has_false c key h
    unfold Configuration.callRef Configuration.callAs
    rw [hc]
    rfl
  · intro h
    obtain ⟨entry, hc⟩ := call_of_has_true c key h
    refine ⟨entry, hc, ?_⟩
    intro t hconv
    unfold Configuration.callRef Configuration.callAs
    rw [hc]
    simp only
    rw [hconv]
    rfl

theorem callRef_spec_witness :
    (sampleObject.has "missing" = false
      ∧ sampleObject.callRef Configuration.toInt "missing" 3 = Except.ok 3)
    ∧ (sampleObject.has "n" = true
      ∧ sampleObject.callRef Configuration.toInt "n" 3 = Except.ok 7) :=
  ⟨⟨by decide, (callRef_spec Configuration.toInt sampleObject "missing" 3).1 (by decide)⟩,
    ⟨by decide, by
      obtain ⟨entry, hc, hgood⟩ :=
        (callRef_spec Configuration.toInt sampleObject "n" 3).2 (by decide)
      have he : entry = { v := Json.int 7 } := by
        have h2 : sampleObject.call "n" = Except.ok { v := Json.int 7 } := rfl
        rw [h2] at hc
        cases hc
        rfl
      exact hgood 7 (by rw [he]; rfl)⟩⟩

/-! ### Comparison -/

/-- C20, on the code: comparing a stored string with the int 42 does not return
false, it throws the `Configuration::Exception` of the conversion to `int`;
on stored ints the comparison returns true or false. -/
theorem operatorEq_mismatch_throws :
    Configuration.operatorEq Configuration.toInt { v := Json.string "abc" } 42
        = Except.error (Thrown.Exception "Stored Json value is not an int")
      ∧ Configuration.operatorEq Configuration.toInt { v := Json.string "abc" } 42
        ≠ Except.ok false
      ∧ Configuration.operatorEq Configuration.toInt { v := Json.int 42 } 42 = Except.ok true
      ∧ Configuration.operatorEq Configuration.toInt { v := Json.int 41 } 42
        = Except.ok false := by
  refine ⟨rfl, ?_, rfl, rfl⟩
  intro h
  cases h

/-! ### Conversion to `std::vector` -/

/-- Index-wise reading of an element-wise conversion. -/
theorem convertsAll_iff_forall₂ {T : Type} (conv : Configuration → Except Thrown T)
    (xs : List Json) (ys : List T) :
    ConvertsAll conv xs ys ↔ List.Forall₂ (ConvertsTo conv) xs ys := by
  rw [List.forall₂_iff_get]
  unfold ConvertsAll ConvertsTo
  constructor
  · rintro ⟨hl, h⟩
    exact ⟨hl.symm, h⟩
  · rintro ⟨hl, h⟩
    exact ⟨hl.symm, h⟩

/-- When every element converts, the list of the conversions exists. -/
theorem exists_forall₂_convertsTo {T : Type} (conv : Configuration → Except Thrown T) :
    ∀ xs : List Json, (∀ j ∈ xs, ∃ t, conv { v := j } = Except.ok t) →
      ∃ ys, List.Forall₂ (ConvertsTo conv) xs ys := by
  intro xs
  induction xs with
  | nil => intro _; exact ⟨[], List.Forall₂.nil⟩
  | cons j js ih =>
    intro h
    obtain ⟨t, ht⟩ := h j (List.mem_cons_self j js)
    obtain ⟨ys, hys⟩ := ih fun k hk => h k (List.mem_cons_of_mem j hk)
    exact ⟨t :: ys, List.Forall₂.cons ht hys⟩

/-- The body of the vector loop succeeds exactly on convertible elements, and
appends the conversions in order. -/
theorem foldIdx_vector {T : Type} (conv : Configuration → Except Thrown T) :
    ∀ (js : List Json) (i : ℕ) (ret out : List T),
      foldIdx
          (fun _ j r =>
            match conv { v := j } with
            | Except.error e => Except.error e
            | Except.ok x => Except.ok (r ++ [x]))
          js i ret = Except.ok out
        ↔ ∃ ys, List.Forall₂ (ConvertsTo conv) js ys ∧ out = ret ++ ys := by
  intro js
  induction js with
  | nil =>
    intro i ret out
    simp only [foldIdx, List.forall₂_nil_left_iff]
    constructor
    · intro h
      cases h
      exact ⟨[], rfl, by simp⟩
    · rintro ⟨ys, rfl, rfl⟩
      simp
  | cons j js ih =>
    intro i ret out
    simp only [foldIdx]
    cases hc : conv { v := j } with
    | error e =>
      simp only
      constructor
      · intro h; cases h
      · rintro ⟨ys, hys, -⟩
        cases hys with
        | cons h1 _ =>
          unfold ConvertsTo at h1
          rw [hc] at h1
          cases h1
    | ok x =>
      simp only
      rw [ih]
      constructor
      · rintro ⟨ys, hys, rfl⟩
        exact ⟨x :: ys, List.Forall₂.cons hc hys, by simp⟩
      · rintro ⟨ys, hys, rfl⟩
        cases hys with
        | cons h1 h2 =>
          unfold ConvertsTo at h1
          rw [hc] at h1
          cases h1
          exact ⟨_, h2, by simp⟩

/-- The vector conversion of an array whose indices fit `int`. -/
theorem toVector_array {T : Type} (conv : Configuration → Except Thrown T)
    (xs : List Json) (hlen : xs.length ≤ 2147483648) (ys : List T) :
    Configuration.toVector conv { v := Json.array xs } = Except.ok ys
      ↔ List.Forall₂ (ConvertsTo conv) xs ys := by
  unfold Configuration.toVector
  simp only [Json.isArray, if_true, Json.size]
  rw [forLoop_array (fun _ j r =>
      match conv { v := j } with
      | Except.error e => Except.error e
      | Except.ok x => Except.ok (r ++ [x])) xs hlen xs.length 0 [] (by omega)]
  rw [List.drop_zero, foldIdx_vector]
  constructor
  · rintro ⟨zs, hzs, rfl⟩
    simpa using hzs
  · intro h
    exact ⟨ys, h, by simp⟩

/-- C17: conversion to `std::vector<T>`. If the stored value is an array of n
elements (n within the range of `int`), the conversion returns `ys` exactly
when `ys` has length n and its i-th element is the conversion of the i-th
array element, and it does return when every element converts; an empty array
gives an empty vector; if the stored value is not an array the conversion
throws `Configuration::Exception`. -/
theorem toVector_spec {T : Type} (conv : Configuration → Except Thrown T)
    (xs : List Json) (c : Configuration) :
    (xs.length ≤ 2147483648 →
        (∀ ys, Configuration.toVector conv { v := Json.array xs } = Except.ok ys
            ↔ ConvertsAll conv xs ys)
          ∧ ((∀ j ∈ xs, ∃ t, conv { v := j } = Except.ok t) →
              ∃ ys, Configuration.toVector conv { v := Json.array xs } = Except.ok ys
                ∧ ys.length = xs.length))
      ∧ Configuration.toVector conv { v := Json.array [] } = Except.ok []
      ∧ (c.v.isArray = false →
          Configuration.toVector conv c
            = Except.error (Thrown.Exception "Stored Json value is not a vector")) := by
  refine ⟨fun hlen => ⟨fun ys => ?_, fun hall => ?_⟩, rfl, fun hna => ?_⟩
  · rw [toVector_array conv xs hlen, convertsAll_iff_forall₂]
  · obtain ⟨ys, hys⟩ := exists_forall₂_convertsTo conv xs hall
    exact ⟨ys, (toVector_array conv xs hlen ys).mpr hys, hys.length_eq.symm⟩
  · unfold Configuration.toVector
    rw [hna]
    rfl

theorem toVector_spec_witness :
    ([Json.int 1, Json.int 2, Json.int 3].length ≤ 2147483648
      ∧ ConvertsAll Configuration.toInt [Json.int 1, Json.int 2, Json.int 3] [1, 2, 3]
      ∧ Configuration.toVector Configuration.toInt sampleArray = Except.ok [1, 2, 3])
    ∧ (sampleObject.v.isArray = false
      ∧ Configuration.toVector Configuration.toInt sampleObject
          = Except.error (Thrown.Exception "Stored Json value is not a vector")) := by
  have hall : ConvertsAll Configuration.toInt [Json.int 1, Json.int 2, Json.int 3]
      [1, 2, 3] := by
    rw [convertsAll_iff_forall₂]
    exact List.Forall₂.cons rfl (List.Forall₂.cons rfl (List.Forall₂.cons rfl List.Forall₂.nil))
  exact ⟨⟨by decide, hall,
      ((toVector_spec Configuration.toInt [Json.int 1, Json.int 2, Json.int 3]
        sampleObject).1 (by decide)).1 [1, 2, 3] |>.mpr hall⟩,
    ⟨rfl, (toVector_spec Configuration.toInt [] sampleObject).2.2 rfl⟩⟩

/-! ### Conversion to `std::array` -/

/-- Writing the element that follows a prefix. -/
theorem set_length_append {T : Type} (pre : List T) (r x : T) (rest : List T) :
    (pre ++ r :: rest).set pre.length x = pre ++ x :: rest := by
  induction pre with
  | nil => rfl
  | cons p pre ih =>
    show p :: (pre ++ r :: rest).set pre.length x = p :: (pre ++ x :: rest)
    rw [ih]

/-- The body of the array loop succeeds exactly on convertible elements, and
overwrites the elements after the prefix with the conversions, in order. -/
theorem foldIdx_array {T : Type} (conv : Configuration → Except Thrown T) :
    ∀ (js : List Json) (pre rest out : List T), rest.length = js.length →
      (foldIdx
          (fun i j r =>
            match conv { v := j } with
            | Except.error e => Except.error e
            | Except.ok x => Except.ok (r.set i x))
          js pre.length (pre ++ rest) = Except.ok out
        ↔ ∃ ys, List.Forall₂ (ConvertsTo conv) js ys ∧ out = pre ++ ys) := by
  intro js
  induction js with
  | nil =>
    intro pre rest out hrest
    have hnil : rest = [] := List.length_eq_zero.mp hrest
    subst hnil
    simp only [foldIdx, List.forall₂_nil_left_iff]
    constructor
    · intro h
      cases h
      exact ⟨[], rfl, rfl⟩
    · rintro ⟨ys, rfl, rfl⟩
      rfl
  | cons j js ih =>
    intro pre rest out hrest
    cases rest with
    | nil => simp at hrest
    | cons r rest =>
      have hrest2 : rest.length = js.length := by simpa using hrest
      simp only [foldIdx]
      cases hc : conv { v := j } with
      | error e =>
        simp only
        constructor
        · intro h; cases h
        · rintro ⟨ys, hys, -⟩
          cases hys with
          | cons h1 _ =>
            unfold ConvertsTo at h1
            rw [hc] at h1
            cases h1
      | ok x =>
        simp only
        rw [set_length_append]
        have hstep := ih (pre ++ [x]) rest out hrest2
        rw [List.length_append, List.length_singleton, List.append_assoc,
          List.singleton_append] at hstep
        rw [hstep]
        constructor
        · rintro ⟨ys, hys, rfl⟩
          exact ⟨x :: ys, List.Forall₂.cons hc hys, by simp⟩
        · rintro ⟨ys, hys, rfl⟩
          cases hys with
          | cons h1 h2 =>
            unfold ConvertsTo at h1
            rw [hc] at h1
            cases h1
            exact ⟨_, h2, by simp⟩

/-- The array conversion of an array of exactly `N` elements, `N` within the
range of `int`. -/
theorem toArray_array {T : Type} (conv : Configuration → Except Thrown T) (N : ℕ) (init : T)
    (xs : List Json) (hN : xs.length = N) (hlen : N ≤ 2147483648) (ys : List T) :
    Configuration.toArray conv N init { v := Json.array xs } = Except.ok ys
      ↔ List.Forall₂ (ConvertsTo conv) xs ys := by
  unfold Configuration.toArray
  have hcond : ((Json.array xs).isArray && (Json.array xs).size == N) = true := by
    simp [Json.isArray, Json.size, hN]
  rw [if_pos hcond]
  rw [forLoop_array (fun i j r =>
      match conv { v := j } with
      | Except.error e => Except.error e
      | Except.ok x => Except.ok (r.set i x)) xs (by omega) N 0 (List.replicate N init)
      (by omega)]
  rw [List.drop_zero]
  have h := foldIdx_array conv xs [] (List.replicate N init) ys (by simp [hN])
  simp only [List.length_nil, List.nil_append] at h
  rw [h]
  constructor
  · rintro ⟨zs, hzs, rfl⟩
    exact hzs
  · intro h2
    exact ⟨ys, h2, rfl⟩

/-- C18: conversion to `std::array<T, N>` throws `Configuration::Exception` if
the stored value is not an array or its size differs from N; when the stored
value is an array of exactly N elements (N within the range of `int`) the
conversion returns `ys` exactly when element i of `ys` is the conversion of
element i, and it does return when every element converts. -/
theorem toArray_spec {T : Type} (conv : Configuration → Except Thrown T) (N : ℕ) (init : T)
    (xs : List Json) (c : Configuration) :
    ((c.v.isArray = false ∨ c.v.size ≠ N) →
        Configuration.toArray conv N init c = Except.error
          (Thrown.Exception "Stored Json vaule is not an array or its size is incorrect"))
      ∧ (xs.length = N → N ≤ 2147483648 →
          (∀ ys, Configuration.toArray conv N init { v := Json.array xs } = Except.ok ys
              ↔ ConvertsAll conv xs ys)
            ∧ ((∀ j ∈ xs, ∃ t, conv { v := j } = Except.ok t) →
                ∃ ys, Configuration.toArray conv N init { v := Json.array xs } = Except.ok ys
                  ∧ ys.length = N)) := by
  refine ⟨fun hbad => ?_, fun hN hlen => ⟨fun ys => ?_, fun hall => ?_⟩⟩
  · unfold Configuration.toArray
    have hcond : ¬ ((c.v.isArray && c.v.size == N) = true) := by
      rcases hbad with h | h
      · simp [h]
      · simp [h]
    rw [if_neg hcond]
  · rw [toArray_array conv N init xs hN hlen, convertsAll_iff_forall₂]
  · obtain ⟨ys, hys⟩ := exists_forall₂_convertsTo conv xs hall
    exact ⟨ys, (toArray_array conv N init xs hN hlen ys).mpr hys,
      by rw [← hN]; exact hys.length_eq.symm⟩

theorem toArray_spec_witness :
    ((sampleArray.v.isArray = false ∨ sampleArray.v.size ≠ 2)
      ∧ Configuration.toArray Configuration.toInt 2 0 sampleArray = Except.error
          (Thrown.Exception "Stored Json vaule is not an array or its size is incorrect"))
    ∧ ([Json.int 1, Json.int 2, Json.int 3].length = 3 ∧ 3 ≤ 2147483648
      ∧ ConvertsAll Configuration.toInt [Json.int 1, Json.int 2, Json.int 3] [1, 2, 3]
      ∧ Configuration.toArray Configuration.toInt 3 0 sampleArray = Except.ok [1, 2, 3]) := by
  have hall : ConvertsAll Configuration.toInt [Json.int 1, Json.int 2, Json.int 3]
      [1, 2, 3] := by
    rw [convertsAll_iff_forall₂]
    exact List.Forall₂.cons rfl (List.Forall₂.cons rfl (List.Forall₂.cons rfl List.Forall₂.nil))
  exact ⟨⟨Or.inr (by decide),
      (toArray_spec Configuration.toInt 2 0 [] sampleArray).1 (Or.inr (by decide))⟩,
    ⟨rfl, by decide, hall,
      ((toArray_spec Configuration.toInt 3 0 [Json.int 1, Json.int 2, Json.int 3]
        sampleArray).2 rfl (by decide)).1 [1, 2, 3] |>.mpr hall⟩⟩

/-! ### Conversion to `std::set` -/

/-- The conversions of the elements are exactly the values the elements
convert to. -/
theorem mem_iff_of_forall₂ {T : Type} (conv : Configuration → Except Thrown T) :
    ∀ (xs : List Json) (ys : List T), List.Forall₂ (ConvertsTo conv) xs ys →
      ∀ t, t ∈ ys ↔ ∃ j ∈ xs, conv { v := j } = Except.ok t := by
  intro xs ys h
  induction h with
  | nil => intro t; simp
  | @cons j y js ys1 h1 _ ih =>
    intro t
    unfold ConvertsTo at h1
    rw [List.mem_cons, ih t]
    constructor
    · rintro (rfl | ⟨k, hk, hkt⟩)
      · exact ⟨j, List.mem_cons_self j js, h1⟩
      · exact ⟨k, List.mem_cons_of_mem j hk, hkt⟩
    · rintro ⟨k, hk, hkt⟩
      rcases List.mem_cons.mp hk with rfl | hk2
      · rw [h1] at hkt
        cases hkt
        exact Or.inl rfl
      · exact Or.inr ⟨k, hk2, hkt⟩

/-- The body of the set loop succeeds exactly when the elements convert to
pairwise distinct values, none of them already in the set. -/
theorem foldIdx_set {T : Type} [DecidableEq T] (conv : Configuration → Except Thrown T) :
    ∀ (js : List Json) (i : ℕ) (ret out : Finset T),
      foldIdx
          (fun _ j r =>
            match conv { v := j } with
            | Except.error e => Except.error e
            | Except.ok x =>
              if x ∈ r then
                Except.error (Thrown.Exception "Stored Json set does not hold unique values")
              else Except.ok (insert x r))
          js i ret = Except.ok out
        ↔ ∃ ys, List.Forall₂ (ConvertsTo conv) js ys ∧ ys.Nodup ∧ (∀ y ∈ ys, y ∉ ret)
            ∧ out = ret ∪ ys.toFinset := by
  intro js
  induction js with
  | nil =>
    intro i ret out
    simp only [foldIdx, List.forall₂_nil_left_iff]
    constructor
    · intro h
      cases h
      exact ⟨[], rfl, List.nodup_nil, by simp, by simp⟩
    · rintro ⟨ys, rfl, -, -, rfl⟩
      simp
  | cons j js ih =>
    intro i ret out
    simp only [foldIdx]
    cases hc : conv { v := j } with
    | error e =>
      simp only
      constructor
      · intro h; cases h
      · rintro ⟨ys, hys, -⟩
        cases hys with
        | cons h1 _ =>
          unfold ConvertsTo at h1
          rw [hc] at h1
          cases h1
    | ok x =>
      simp only
      by_cases hx : x ∈ ret
      · rw [if_pos hx]
        simp only
        constructor
        · intro h; cases h
        · rintro ⟨ys, hys, -, hfresh, -⟩
          cases hys with
          | cons h1 _ =>
            unfold ConvertsTo at h1
            rw [hc] at h1
            cases h1
            exact absurd hx (hfresh x (List.mem_cons_self _ _))
      · rw [if_neg hx]
        simp only
        rw [ih]
        constructor
        · rintro ⟨ys, hys, hnd, hfresh, rfl⟩
          refine ⟨x :: ys, List.Forall₂.cons hc hys, ?_, ?_, ?_⟩
          · refine List.nodup_cons.mpr ⟨fun hmem => ?_, hnd⟩
            exact hfresh x hmem (Finset.mem_insert_self x ret)
          · intro y hy
            rcases List.mem_cons.mp hy with rfl | hy2
            · exact hx
            · exact fun hyr => hfresh y hy2 (Finset.mem_insert_of_mem hyr)
          · ext t
            simp only [Finset.mem_union, Finset.mem_insert, List.mem_toFinset, List.mem_cons]
            tauto
        · rintro ⟨ys, hys, hnd, hfresh, rfl⟩
          cases hys with
          | cons h1 h2 =>
            rename_i y ys1
            unfold ConvertsTo at h1
            rw [hc] at h1
            cases h1
            obtain ⟨hxys, hnd1⟩ := List.nodup_cons.mp hnd
            refine ⟨ys1, h2, hnd1, ?_, ?_⟩
            · intro y hy hins
              rcases Finset.mem_insert.mp hins with rfl | hyr
              · exact hxys hy
              · exact hfresh y (List.mem_cons_of_mem _ hy) hyr
            · ext t
              simp only [Finset.mem_union, Finset.mem_insert, List.mem_toFinset,
                List.mem_cons]
              tauto

/-- When all elements convert but two conversions coincide, or one is already
in the set, the loop throws the uniqueness exception. -/
theorem foldIdx_set_duplicate {T : Type} [DecidableEq T]
    (conv : Configuration → Except Thrown T) :
    ∀ (js : List Json) (ys : List T), List.Forall₂ (ConvertsTo conv) js ys →
      ∀ (i : ℕ) (ret : Finset T), ¬ (ys.Nodup ∧ ∀ y ∈ ys, y ∉ ret) →
        foldIdx
            (fun _ j r =>
              match conv { v := j } with
              | Except.error e => Except.error e
              | Except.ok x =>
                if x ∈ r then
                  Except.error (Thrown.Exception "Stored Json set does not hold unique values")
                else Except.ok (insert x r))
            js i ret
          = Except.error (Thrown.Exception "Stored Json set does not hold unique values") := by
  intro js ys h
  induction h with
  | nil =>
    intro i ret hbad
    exact absurd ⟨List.nodup_nil, by simp⟩ hbad
  | @cons j y js1 ys1 h1 _ ih =>
    intro i ret hbad
    unfold ConvertsTo at h1
    simp only [foldIdx, h1]
    by_cases hy : y ∈ ret
    · rw [if_pos hy]
    · rw [if_neg hy]
      simp only
      apply ih
      rintro ⟨hnd, hfresh⟩
      apply hbad
      refine ⟨List.nodup_cons.mpr ⟨fun hmem => ?_, hnd⟩, ?_⟩
      · exact hfresh y hmem (Finset.mem_insert_self y ret)
      · intro z hz
        rcases List.mem_cons.mp hz with rfl | hz2
        · exact hy
        · exact fun hzr => hfresh z hz2 (Finset.mem_insert_of_mem hzr)

/-- The set conversion of an array whose indices fit `int`. -/
theorem toSet_array {T : Type} [DecidableEq T] (conv : Configuration → Except Thrown T)
    (xs : List Json) (hlen : xs.length ≤ 2147483648) (s : Finset T) :
    Configuration.toSet conv { v := Json.array xs } = Except.ok s
      ↔ ∃ ys, List.Forall₂ (ConvertsTo conv) xs ys ∧ ys.Nodup ∧ s = ys.toFinset := by
  unfold Configuration.toSet
  simp only [Json.isArray, if_true, Json.size]
  rw [forLoop_array (fun _ j r =>
      match conv { v := j } with
      | Except.error e => Except.error e
      | Except.ok x =>
        if x ∈ r then
          Except.error (Thrown.Exception "Stored Json set does not hold unique values")
        else Except.ok (insert x r)) xs hlen xs.length 0 ∅ (by omega)]
  rw [List.drop_zero, foldIdx_set]
  constructor
  · rintro ⟨ys, hys, hnd, -, rfl⟩
    exact ⟨ys, hys, hnd, by simp⟩
  · rintro ⟨ys, hys, hnd, rfl⟩
    exact ⟨ys, hys, hnd, by simp, by simp⟩

/-- C19: conversion to `std::set<T>`. For a stored array (of size within the
range of `int`) the conversion succeeds exactly when the elements convert to
pairwise distinct values, in which case the set holds exactly those values and
has as many members as the array; it throws `Configuration::Exception` if two
of the converted elements are equal, or if the stored value is not an array. -/
theorem toSet_spec {T : Type} [DecidableEq T] (conv : Configuration → Except Thrown T)
    (xs : List Json) (c : Configuration) :
    (xs.length ≤ 2147483648 →
        (∀ s, Configuration.toSet conv { v := Json.array xs } = Except.ok s
            ↔ ∃ ys, ConvertsAll conv xs ys ∧ ys.Nodup ∧ s = ys.toFinset)
          ∧ (∀ s, Configuration.toSet conv { v := Json.array xs } = Except.ok s →
              s.card = xs.length ∧ ∀ t, t ∈ s ↔ ∃ j ∈ xs, conv { v := j } = Except.ok t)
          ∧ (∀ ys, ConvertsAll conv xs ys → ¬ ys.Nodup →
              Configuration.toSet conv { v := Json.array xs } = Except.error
                (Thrown.Exception "Stored Json set does not hold unique values")))
      ∧ (c.v.isArray = false →
          Configuration.toSet conv c
            = Except.error (Thrown.Exception "Stored Json value is not an array")) := by
  refine ⟨fun hlen => ⟨fun s => ?_, fun s hs => ?_, fun ys hys hdup => ?_⟩, fun hna => ?_⟩
  · rw [toSet_array conv xs hlen]
    constructor
    · rintro ⟨ys, hys, hnd, rfl⟩
      exact ⟨ys, (convertsAll_iff_forall₂ conv xs ys).mpr hys, hnd, rfl⟩
    · rintro ⟨ys, hys, hnd, rfl⟩
      exact ⟨ys, (convertsAll_iff_forall₂ conv xs ys).mp hys, hnd, rfl⟩
  · obtain ⟨ys, hys, hnd, rfl⟩ := (toSet_array conv xs hlen s).mp hs
    refine ⟨?_, fun t => ?_⟩
    · rw [List.toFinset_card_of_nodup hnd]
      exact hys.length_eq.symm
    · rw [List.mem_toFinset]
      exact mem_iff_of_forall₂ conv xs ys hys t
  · unfold Configuration.toSet
    simp only [Json.isArray, if_true, Json.size]
    rw [forLoop_array (fun _ j r =>
        match conv { v := j } with
        | Except.error e => Except.error e
        | Except.ok x =>
          if x ∈ r then
            Except.error (Thrown.Exception "Stored Json set does not hold unique values")
          else Except.ok (insert x r)) xs hlen xs.length 0 ∅ (by omega)]
    rw [List.drop_zero]
    exact foldIdx_set_duplicate conv xs ys ((convertsAll_iff_forall₂ conv xs ys).mp hys) 0 ∅
      fun h => hdup h.1
  · unfold Configuration.toSet
    rw [hna]
    rfl

theorem toSet_spec_witness :
    ([Json.int 1, Json.int 2, Json.int 3].length ≤ 2147483648
      ∧ ConvertsAll Configuration.toInt [Json.int 1, Json.int 2, Json.int 3] [1, 2, 3]
      ∧ ([1, 2, 3] : List ℤ).Nodup
      ∧ Configuration.toSet Configuration.toInt sampleArray
          = Except.ok ([1, 2, 3] : List ℤ).toFinset)
    ∧ ([Json.int 1, Json.int 1].length ≤ 2147483648
      ∧ ConvertsAll Configuration.toInt [Json.int 1, Json.int 1] [1, 1]
      ∧ ¬ ([1, 1] : List ℤ).Nodup
      ∧ Configuration.toSet Configuration.toInt { v := Json.array [Json.int 1, Json.int 1] }
          = Except.error (Thrown.Exception "Stored Json set does not hold unique values"))
    ∧ (sampleObject.v.isArray = false
      ∧ Configuration.toSet Configuration.toInt sampleObject
          = Except.error (Thrown.Exception "Stored Json value is not an array")) := by
  have h3 : ConvertsAll Configuration.toInt [Json.int 1, Json.int 2, Json.int 3]
      [1, 2, 3] := by
    rw [convertsAll_iff_forall₂]
    exact List.Forall₂.cons rfl (List.Forall₂.cons rfl (List.Forall₂.cons rfl List.Forall₂.nil))
  have h2 : ConvertsAll Configuration.toInt [Json.int 1, Json.int 1] [1, 1] := by
    rw [convertsAll_iff_forall₂]
    exact List.Forall₂.cons rfl (List.Forall₂.cons rfl List.Forall₂.nil)
  exact ⟨⟨by decide, h3, by decide,
      ((toSet_spec Configuration.toInt [Json.int 1, Json.int 2, Json.int 3]
        sampleObject).1 (by decide)).1 _ |>.mpr ⟨[1, 2, 3], h3, by decide, rfl⟩⟩,
    ⟨by decide, h2, by decide,
      ((toSet_spec Configuration.toInt [Json.int 1, Json.int 1] sampleObject).1
        (by decide)).2.2 [1, 1] h2 (by decide)⟩,
    ⟨rfl, (toSet_spec Configuration.toInt [] sampleObject).2 rfl⟩⟩

/-! ### Adding a vector or a set -/

/-- The entry written under a key of an object is the one read back. -/
theorem withEntry_call (c : Configuration) (members : List (String × Json))
    (hc : c.v = Json.object members) (key : String) (j : Json) :
    (c.withEntry key j).call key = Except.ok { v := j } := by
  unfold Configuration.withEntry
  rw [hc]
  simp only [Configuration.call, List.lookup, beq_self_eq_true]

/-- Pushing the elements of a vector appends their images, in order. -/
theorem pushAll_array {T : Type} (save : T → Json) :
    ∀ (value : List T) (elems : List Json),
      pushAll save value { v := Json.array elems }
        = Except.ok { v := Json.array (elems ++ value.map save) } := by
  intro value
  induction value with
  | nil => intro elems; simp [pushAll]
  | cons vi rest ih =>
    intro elems
    simp only [pushAll, Configuration.push]
    rw [ih]
    simp

/-- The vector overload stores the array of the images of the elements. -/
theorem addVector_entry {T : Type} (save : T → Json) (c : Configuration)
    (members : List (String × Json)) (hc : c.v = Json.object members) (key : String)
    (value : List T) :
    ∃ c1, c.addVector save key value = Except.ok c1
      ∧ c1.call key = Except.ok { v := Json.array (value.map save) } := by
  refine ⟨c.withEntry key (Json.array (value.map save)), ?_, withEntry_call c members hc _ _⟩
  unfold Configuration.addVector
  rw [pushAll_array]
  rfl

/-- The loop of the set overloads returns when no call on an element throws. -/
theorem callEach_ok {T : Type} (memberPush : T → Except Thrown Unit)
    (h : ∀ e, memberPush e = Except.ok ()) :
    ∀ xs : List T, callEach memberPush xs = Except.ok () := by
  intro xs
  induction xs with
  | nil => rfl
  | cons e rest ih =>
    simp only [callEach, h e]
    exact ih

/-- The set overload stores an empty array, whatever the set. -/
theorem addSet_entry {T : Type} [LinearOrder T] (memberPush : T → Except Thrown Unit)
    (h : ∀ e, memberPush e = Except.ok ()) (c : Configuration)
    (members : List (String × Json)) (hc : c.v = Json.object members) (key : String)
    (value : Finset T) :
    ∃ c1, c.addSet memberPush key value = Except.ok c1
      ∧ c1.call key = Except.ok { v := Json.array [] } := by
  refine ⟨c.withEntry key (Json.array []), ?_, withEntry_call c members hc _ _⟩
  unfold Configuration.addSet
  rw [callEach_ok memberPush h]

/-- C21, on the code: adding the set {1, 2} under the key "s" leaves an empty
array under "s", not an array holding 1 and 2, and pushing the set appends an
empty array; the vector overloads store and append the array [1, 2]. -/
theorem addSet_drops_members :
    (∃ c1, sampleObject.addSet (fun _ : ℤ => Except.ok ()) "s" {1, 2} = Except.ok c1
        ∧ c1.call "s" = Except.ok { v := Json.array [] }
        ∧ c1.call "s" ≠ Except.ok { v := Json.array [Json.int 1, Json.int 2] })
      ∧ (∃ c2, sampleObject.addVector Json.int "s" [1, 2] = Except.ok c2
        ∧ c2.call "s" = Except.ok { v := Json.array [Json.int 1, Json.int 2] })
      ∧ sampleArray.pushSet (fun _ : ℤ => Except.ok ()) {1, 2}
          = Except.ok { v := Json.array [Json.int 1, Json.int 2, Json.int 3, Json.array []] }
      ∧ sampleArray.pushVector Json.int [1, 2]
          = Except.ok { v := Json.array [Json.int 1, Json.int 2, Json.int 3,
              Json.array [Json.int 1, Json.int 2]] } := by
  refine ⟨?_, ?_, ?_, ?_⟩
  · obtain ⟨c1, h1, h2⟩ := addSet_entry (fun _ : ℤ => Except.ok ()) (fun _ => rfl)
      sampleObject _ rfl "s" {1, 2}
    refine ⟨c1, h1, h2, ?_⟩
    rw [h2]
    intro h
    cases h
  · exact addVector_entry Json.int sampleObject _ rfl "s" [1, 2]
  · unfold Configuration.pushSet
    rw [callEach_ok _ (fun _ => rfl)]
    rfl
  · rfl

end mc_rtc
